import Mathlib

/-!
# terraform-provider-kind: the `kind_cluster` resource

A shallow embedding of `internal/provider/cluster_resource.go`.

The resource is a thin orchestration layer over three things it does not
define: the operating system's file calls (`os.WriteFile`, `os.ReadFile`,
`os.Remove`), the external `kind` executable (`exec.CommandContext`), and two
libraries (the YAML decoder and the Terraform plugin framework).  Each of them
is a field of `World`, so every theorem below holds for all behaviours of
these collaborators.  Every effect is appended to `World.log`, which records
the order in which the resource touched the outside world.

Go strings are modelled as Lean strings (well-formed UTF-8 text); Go `error`
values by their message text (`none` is `nil`); `tflog` calls are omitted.
-/

namespace KindProvider

/-! ## The Go `strings` functions used by the resource -/

/-- White space as `unicode.IsSpace` defines it. -/
def isSpace (c : Char) : Bool :=
  let n := c.toNat
  (9 ≤ n && n ≤ 13) || n == 32 || n == 133 || n == 160 || n == 5760 ||
    (8192 ≤ n && n ≤ 8202) || n == 8232 || n == 8233 || n == 8239 || n == 8287 || n == 12288

/-- The line feed character, the separator of `strings.Split(_, "\n")`. -/
def newline : Char := Char.ofNat 10

/-- Leading and trailing white space removed from a list of characters. -/
def trimChars (s : List Char) : List Char :=
  (s.dropWhile isSpace).rdropWhile isSpace

/-- Go's `strings.TrimSpace`. -/
def TrimSpace (s : String) : String := ⟨trimChars s.data⟩

/-- The pieces of a list of characters between occurrences of `sep`; never empty. -/
def splitChars (sep : Char) : List Char → List (List Char)
  | [] => [[]]
  | c :: cs =>
    if c = sep then [] :: splitChars sep cs
    else
      match splitChars sep cs with
      | [] => [[c]]
      | p :: ps => (c :: p) :: ps

/-- Go's `strings.Split` with a one-character separator. -/
def Split (s : String) (sep : Char) : List String :=
  (splitChars sep s.data).map String.mk

/-- Whether the first list begins with the second. -/
def startsWith : List Char → List Char → Bool
  | _, [] => true
  | [], _ :: _ => false
  | a :: s, b :: p => a == b && startsWith s p

/-- Whether the second list occurs as a contiguous run inside the first. -/
def containsChars : List Char → List Char → Bool
  | [], sub => startsWith [] sub
  | a :: s, sub => startsWith (a :: s) sub || containsChars s sub

/-- Go's `strings.Contains`. -/
def Contains (s substr : String) : Bool := containsChars s.data substr.data

/-- Go's `strings.Join`. -/
def Join (elems : List String) (sep : String) : String := sep.intercalate elems

/-! ## Plugin framework values -/

/-- Framework `types.String`: null, unknown, or a known value. -/
inductive TfString where
  | null
  | unknown
  | value (s : String)
  deriving DecidableEq, Repr

/-- Framework `types.String.IsNull`. -/
def TfString.IsNull : TfString → Bool
  | .null => true
  | _ => false

/-- Framework `types.String.ValueString`: the known value, or the empty string. -/
def TfString.ValueString : TfString → String
  | .value s => s
  | _ => ""

/-- Framework `types.Bool`: null, unknown, or a known value. -/
inductive TfBool where
  | null
  | unknown
  | value (b : Bool)
  deriving DecidableEq, Repr

/-- Framework `types.Bool.IsNull`. -/
def TfBool.IsNull : TfBool → Bool
  | .null => true
  | _ => false

/-- Framework `types.Bool.ValueBool`: the known value, or false. -/
def TfBool.ValueBool : TfBool → Bool
  | .value b => b
  | _ => false

/-- Type `ClusterResourceModel` describes the resource data model. -/
structure ClusterResourceModel where
  Name : TfString
  KindConfig : TfString
  ConfigPath : TfString
  NodeImage : TfString
  WaitForReady : TfBool
  Kubeconfig : TfString
  Endpoint : TfString
  Id : TfString
  deriving DecidableEq, Repr

/-- Severity of a diagnostic. -/
inductive Severity where
  | error
  | warning
  deriving DecidableEq, Repr

/-- One entry of `diag.Diagnostics`. -/
structure Diagnostic where
  severity : Severity
  summary : String
  detail : String
  deriving DecidableEq, Repr

namespace Diagnostics

/-- Framework `Diagnostics.HasError`. -/
def HasError (ds : List Diagnostic) : Bool :=
  ds.any fun d => d.severity == Severity.error

/-- Framework `Diagnostics.Append`: adds the diagnostics that are not already present. -/
def Append (ds new : List Diagnostic) : List Diagnostic :=
  new.foldl (fun acc d => if d ∈ acc then acc else acc ++ [d]) ds

/-- Framework `Diagnostics.AddError`. -/
def AddError (ds : List Diagnostic) (summary detail : String) : List Diagnostic :=
  Append ds [⟨Severity.error, summary, detail⟩]

end Diagnostics

/-- What a lifecycle call receives: the plan (Create, Update) or the prior state
(Read, Delete) as `Get` decodes it into the model, together with the
diagnostics of that decoding. -/
structure Request where
  data : ClusterResourceModel
  getDiags : List Diagnostic

/-- What a lifecycle call answers: the diagnostics and the resource state
(`none` is the null state: no resource). -/
structure Response where
  Diagnostics : List Diagnostic
  State : Option ClusterResourceModel
  deriving DecidableEq, Repr

/-! ## Documents -/

deriving instance DecidableEq for Except

/-- The part of `kindv1alpha4.Cluster` that the resource looks at. -/
structure Cluster where
  Kind : String
  deriving DecidableEq, Repr

/-- The innermost anonymous struct of the kubeconfig shape in `getClusterEndpoint`. -/
structure ClusterInfo where
  Server : String
  deriving DecidableEq, Repr

/-- One entry of the `clusters` list. -/
structure NamedCluster where
  Cluster : ClusterInfo
  deriving DecidableEq, Repr

/-- The anonymous kubeconfig struct declared in `getClusterEndpoint`. -/
structure Kubeconfig where
  Clusters : List NamedCluster
  deriving DecidableEq, Repr

/-! ## The outside world -/

/-- What one run of the `kind` executable yields: `Output()` returns `stdout`,
`CombinedOutput()` returns `combined`, and both return `err`. -/
structure CmdResult where
  stdout : String
  combined : String
  err : Option String
  deriving DecidableEq, Repr

/-- An effect of the resource on the outside world. -/
inductive Event where
  | writeFile (path data : String)
  | readFile (path : String)
  | remove (path : String)
  | exec (args : List String)
  deriving DecidableEq, Repr

/-- How a failing `os.WriteFile` ends: the error, and what it leaves at the path
(a failure midway can leave the file in any state). -/
structure WriteFault where
  err : String
  left : Option String

/-- The file system, the `kind` executable, and the libraries.

* `files p` is the content of the file at `p`, if one exists.
* `tool log args` is the result of running `kind args...` after the effects in
  `log`; it may answer the same arguments differently at different times.
* `writeFault`, `readFault`, `removeFault` say where the file calls fail.
* `unmarshalCluster` and `unmarshalKubeconfig` are `yaml.Unmarshal` into the
  two target types; `stateSet` is the diagnostics of `State.Set`.

During one call only the call itself changes `files`. -/
structure World where
  files : String → Option String
  log : List Event
  tool : List Event → List String → CmdResult
  writeFault : String → String → Option WriteFault
  readFault : String → Option String
  removeFault : String → Option String
  unmarshalCluster : String → Except String Cluster
  unmarshalKubeconfig : String → Except String Kubeconfig
  stateSet : ClusterResourceModel → List Diagnostic

/-- Go's `os.WriteFile(path, data, 0644)`. -/
def osWriteFile (w : World) (path data : String) : World × Option String :=
  match w.writeFault path data with
  | some f =>
    ({ w with files := fun p => if p = path then f.left else w.files p,
              log := w.log ++ [Event.writeFile path data] }, some f.err)
  | none =>
    ({ w with files := fun p => if p = path then some data else w.files p,
              log := w.log ++ [Event.writeFile path data] }, none)

/-- Go's `os.ReadFile(path)`; the empty path names no file. -/
def osReadFile (w : World) (path : String) : World × Except String String :=
  let w1 := { w with log := w.log ++ [Event.readFile path] }
  if path = "" then (w1, .error "open : no such file or directory")
  else
    match w.readFault path with
    | some e => (w1, .error e)
    | none =>
      match w.files path with
      | none => (w1, .error ("open " ++ path ++ ": no such file or directory"))
      | some d => (w1, .ok d)

/-- Go's `os.Remove(path)`. -/
def osRemove (w : World) (path : String) : World × Option String :=
  match w.removeFault path with
  | some e => ({ w with log := w.log ++ [Event.remove path] }, some e)
  | none =>
    ({ w with files := fun p => if p = path then none else w.files p,
              log := w.log ++ [Event.remove path] },
      match w.files path with
      | none => some ("remove " ++ path ++ ": no such file or directory")
      | some _ => none)

/-- Go's `exec.CommandContext(ctx, "kind", args...)` run to completion. -/
def runKind (w : World) (args : List String) : World × CmdResult :=
  ({ w with log := w.log ++ [Event.exec args] }, w.tool w.log args)

/-- Framework `resp.Diagnostics.Append(resp.State.Set(ctx, &data)...)`: the state is
replaced unless `Set` reports an error. -/
def Response.SetState (w : World) (resp : Response) (data : ClusterResourceModel) : Response :=
  { Diagnostics := Diagnostics.Append resp.Diagnostics (w.stateSet data),
    State := if Diagnostics.HasError (w.stateSet data) then resp.State else some data }

/-- Framework `resp.Diagnostics.AddError(summary, detail)`. -/
def Response.AddError (resp : Response) (summary detail : String) : Response :=
  { resp with Diagnostics := Diagnostics.AddError resp.Diagnostics summary detail }

/-! ## Helper functions of the resource -/

/-- Helper `validateKindConfig`: the file must be readable, parse, and be of kind `Cluster`. -/
def validateKindConfig (w : World) (configPath : String) : World × Option String :=
  let r := osReadFile w configPath
  match r.2 with
  | .error err => (r.1, some ("failed to read config file: " ++ err))
  | .ok data =>
    match w.unmarshalCluster data with
    | .error err => (r.1, some ("failed to parse YAML: " ++ err))
    | .ok config =>
      if config.Kind ≠ "Cluster" then
        (r.1, some ("kind must be 'Cluster', got '" ++ config.Kind ++ "'"))
      else (r.1, none)

/-- Helper `clusterExists`: whether `kind get clusters` lists `name`. -/
def clusterExists (w : World) (name : String) : World × Except String Bool :=
  let r := runKind w ["get", "clusters"]
  match r.2.err with
  | some err => (r.1, .error ("failed to list clusters: " ++ err))
  | none =>
    let clusters := Split (TrimSpace r.2.stdout) newline
    (r.1, .ok (clusters.any fun cluster => TrimSpace cluster == name))

/-- Helper `getKubeconfig`: the standard output of `kind get kubeconfig --name name`. -/
def getKubeconfig (w : World) (name : String) : World × Except String String :=
  let r := runKind w ["get", "kubeconfig", "--name", name]
  match r.2.err with
  | some err => (r.1, .error ("failed to get kubeconfig: " ++ err))
  | none => (r.1, .ok r.2.stdout)

/-- Helper `getClusterEndpoint`: runs `kind get kubeconfig --name name` itself and
returns the server of the first cluster of the document. -/
def getClusterEndpoint (w : World) (name : String) : World × Except String String :=
  let r := runKind w ["get", "kubeconfig", "--name", name]
  match r.2.err with
  | some err => (r.1, .error ("failed to get kubeconfig for endpoint: " ++ err))
  | none =>
    match w.unmarshalKubeconfig r.2.stdout with
    | .error err => (r.1, .error ("failed to parse kubeconfig: " ++ err))
    | .ok kubeconfig =>
      match kubeconfig.Clusters with
      | [] => (r.1, .error "no clusters found in kubeconfig")
      | c :: _ => (r.1, .ok c.Cluster.Server)

/-! ## Lifecycle calls -/

/-- The argument list of `kind create cluster` as `Create` builds it. -/
def createArgs (data : ClusterResourceModel) (clusterName configFile : String) : List String :=
  let args := ["create", "cluster", "--name", clusterName]
  let args := if configFile ≠ "" then args ++ ["--config", configFile] else args
  let args := if !data.NodeImage.IsNull then args ++ ["--image", data.NodeImage.ValueString] else args
  if !data.WaitForReady.IsNull && data.WaitForReady.ValueBool then args ++ ["--wait", "300s"] else args

/-- The part of `Create` that follows the choice of `configFile`: validation,
the `kind create cluster` run, the two kubeconfig fetches and `State.Set`. -/
def Create_rest (w : World) (resp : Response) (data : ClusterResourceModel)
    (clusterName configFile : String) : World × Response :=
  let v := if configFile ≠ "" then validateKindConfig w configFile else (w, none)
  match v.2 with
  | some err =>
    (v.1, resp.AddError "Invalid Kind configuration" ("Error validating config: " ++ err))
  | none =>
    let args := createArgs data clusterName configFile
    let c := runKind v.1 args
    match c.2.err with
    | some err =>
      (c.1, resp.AddError "Failed to create Kind cluster"
        ("Command: kind " ++ Join args " " ++ "\nOutput: " ++ c.2.combined ++ "\nError: " ++ err))
    | none =>
      let k := getKubeconfig c.1 clusterName
      match k.2 with
      | .error err => (k.1, resp.AddError "Failed to get kubeconfig" ("Error: " ++ err))
      | .ok kubeconfig =>
        let e := getClusterEndpoint k.1 clusterName
        match e.2 with
        | .error err => (e.1, resp.AddError "Failed to get cluster endpoint" ("Error: " ++ err))
        | .ok endpoint =>
          (e.1, resp.SetState e.1
            { data with Id := .value clusterName, Kubeconfig := .value kubeconfig,
                        Endpoint := .value endpoint })

/-- The path of the temporary file that holds an inline configuration. -/
def tempFilePath (clusterName : String) : String :=
  "/tmp/kind-config-" ++ clusterName ++ ".yaml"

/-- Method `ClusterResource.Create`.  The deferred `os.Remove` runs when the body that
follows its registration has returned. -/
def Create (w : World) (req : Request) : World × Response :=
  let resp : Response := { Diagnostics := Diagnostics.Append [] req.getDiags, State := none }
  if Diagnostics.HasError resp.Diagnostics then (w, resp)
  else
    let data := req.data
    if data.KindConfig.IsNull && data.ConfigPath.IsNull then
      (w, resp.AddError "Configuration Required"
        "Either 'kind_config' or 'config_path' must be specified")
    else if !data.KindConfig.IsNull && !data.ConfigPath.IsNull then
      (w, resp.AddError "Conflicting Configuration"
        "Only one of 'kind_config' or 'config_path' should be specified")
    else
      let clusterName := data.Name.ValueString
      if !data.ConfigPath.IsNull then
        Create_rest w resp data clusterName data.ConfigPath.ValueString
      else if !data.KindConfig.IsNull then
        let wr := osWriteFile w (tempFilePath clusterName) data.KindConfig.ValueString
        match wr.2 with
        | some err =>
          (wr.1, resp.AddError "Failed to create temporary config file" ("Error: " ++ err))
        | none =>
          let r := Create_rest wr.1 resp data clusterName (tempFilePath clusterName)
          ((osRemove r.1 (tempFilePath clusterName)).1, r.2)
      else Create_rest w resp data clusterName ""

/-- Method `ClusterResource.Read`; the response starts from the prior state. -/
def Read (w : World) (req : Request) : World × Response :=
  let resp : Response :=
    { Diagnostics := Diagnostics.Append [] req.getDiags, State := some req.data }
  if Diagnostics.HasError resp.Diagnostics then (w, resp)
  else
    let data := req.data
    let clusterName := data.Name.ValueString
    let x := clusterExists w clusterName
    match x.2 with
    | .error err =>
      (x.1, resp.AddError "Failed to check cluster existence" ("Error: " ++ err))
    | .ok false => (x.1, { resp with State := none })
    | .ok true =>
      let k := getKubeconfig x.1 clusterName
      match k.2 with
      | .error err => (k.1, resp.AddError "Failed to get kubeconfig" ("Error: " ++ err))
      | .ok kubeconfig =>
        let e := getClusterEndpoint k.1 clusterName
        match e.2 with
        | .error err => (e.1, resp.AddError "Failed to get cluster endpoint" ("Error: " ++ err))
        | .ok endpoint =>
          (e.1, resp.SetState e.1
            { data with Kubeconfig := .value kubeconfig, Endpoint := .value endpoint })

/-- Method `ClusterResource.Update`: the plan is stored as the new state. -/
def Update (w : World) (prior : ClusterResourceModel) (req : Request) : World × Response :=
  let resp : Response :=
    { Diagnostics := Diagnostics.Append [] req.getDiags, State := some prior }
  if Diagnostics.HasError resp.Diagnostics then (w, resp)
  else (w, resp.SetState w req.data)

/-- Method `ClusterResource.Delete`; the framework drops the state when no error is reported. -/
def Delete (w : World) (req : Request) : World × Response :=
  let resp : Response :=
    { Diagnostics := Diagnostics.Append [] req.getDiags, State := some req.data }
  if Diagnostics.HasError resp.Diagnostics then (w, resp)
  else
    let clusterName := req.data.Name.ValueString
    let r := runKind w ["delete", "cluster", "--name", clusterName]
    match r.2.err with
    | some err =>
      if !Contains r.2.combined "not found" then
        (r.1, resp.AddError "Failed to delete Kind cluster"
          ("Command: kind delete cluster --name " ++ clusterName ++ "\nOutput: " ++
            r.2.combined ++ "\nError: " ++ err))
      else (r.1, resp)
    | none => (r.1, resp)

/-- Method `ClusterResource.ImportState`: `ImportStatePassthroughID` stores the import
identifier in `name` and leaves every other attribute null. -/
def ImportState (id : String) : Response :=
  { Diagnostics := [],
    State := some
      { Name := .value id, KindConfig := .null, ConfigPath := .null, NodeImage := .null,
        WaitForReady := .null, Kubeconfig := .null, Endpoint := .null, Id := .null } }

/-- The `kind` invocations recorded in a log, oldest first. -/
def invocations : List Event → List (List String)
  | [] => []
  | Event.exec args :: es => args :: invocations es
  | _ :: es => invocations es

/-! ## The listing of `kind get clusters`, as the specification reads it -/

/-- The lines of a text in the specification's sense of "one name per output
line": the pieces between line feeds, where a line feed at the very end closes
the last line instead of opening an empty one.  The empty text has no line. -/
def specOutputLines (output : String) : List String :=
  let pieces := Split output newline
  if pieces.getLast? = some "" then pieces.dropLast else pieces

/-- Presence of `name` in a listing, in the specification's words: `name` is
equal to some output line after that line's white space is trimmed. -/
def specListed (output name : String) : Prop :=
  ∃ line ∈ specOutputLines output, TrimSpace line = name

instance specListed.decidable (output name : String) : Decidable (specListed output name) := by
  unfold specListed
  infer_instance

/-! ## Sample collaborators, used to evaluate the calls on concrete inputs -/

/-- A YAML decoder that knows three configuration documents. -/
def sampleUnmarshalCluster (s : String) : Except String Cluster :=
  if s = "kind: Cluster" then .ok ⟨"Cluster"⟩
  else if s = "kind: Deployment" then .ok ⟨"Deployment"⟩
  else if s = "" then .ok ⟨""⟩
  else .error "yaml: unmarshal errors"

/-- A YAML decoder that knows four credential documents. -/
def sampleUnmarshalKubeconfig (s : String) : Except String Kubeconfig :=
  if s = "clusters: [a, b]" then .ok ⟨[⟨⟨"https://a:6443"⟩⟩, ⟨⟨"https://b:6443"⟩⟩]⟩
  else if s = "clusters: [b]" then .ok ⟨[⟨⟨"https://b:6443"⟩⟩]⟩
  else if s = "clusters: []" then .ok ⟨[]⟩
  else if s = "" then .ok ⟨[]⟩
  else .error "yaml: unmarshal errors"

/-- A world with no files and no faults, around the given `kind` executable. -/
def sampleWorld (tool : List Event → List String → CmdResult) : World :=
  { files := fun _ => none
    log := []
    tool := tool
    writeFault := fun _ _ => none
    readFault := fun _ => none
    removeFault := fun _ => none
    unmarshalCluster := sampleUnmarshalCluster
    unmarshalKubeconfig := sampleUnmarshalKubeconfig
    stateSet := fun _ => [] }

/-- A `kind` executable for which every command succeeds: it lists the cluster
`dev` and exports the same credential document every time. -/
def steadyTool (_ : List Event) (args : List String) : CmdResult :=
  if args = ["get", "clusters"] then ⟨"dev\n", "dev\n", none⟩
  else if args = ["get", "kubeconfig", "--name", "dev"] then
    ⟨"clusters: [a, b]", "clusters: [a, b]", none⟩
  else ⟨"", "", none⟩

/-- A model with only `name` set. -/
def nameOnly (name : String) : ClusterResourceModel :=
  { Name := .value name, KindConfig := .null, ConfigPath := .null, NodeImage := .null,
    WaitForReady := .null, Kubeconfig := .null, Endpoint := .null, Id := .null }

/-- A `kind` executable whose credential export drifts: the first
`kind get kubeconfig --name dev` prints a document with clusters `a` and `b`,
every later one a document with cluster `b` only. -/
def driftTool (log : List Event) (args : List String) : CmdResult :=
  if args = ["get", "clusters"] then ⟨"dev\n", "dev\n", none⟩
  else if args = ["get", "kubeconfig", "--name", "dev"] then
    if Event.exec ["get", "kubeconfig", "--name", "dev"] ∈ log then
      ⟨"clusters: [b]", "clusters: [b]", none⟩
    else ⟨"clusters: [a, b]", "clusters: [a, b]", none⟩
  else ⟨"", "", none⟩

/-- A `kind` executable with no cluster: the listing prints nothing on standard
output, and deleting fails with a "not found" message. -/
def emptyTool (_ : List Event) (args : List String) : CmdResult :=
  if args = ["get", "clusters"] then ⟨"", "No kind clusters found.\n", none⟩
  else if args = ["delete", "cluster", "--name", "dev"] then
    ⟨"", "ERROR: cluster \"dev\" not found", some "exit status 1"⟩
  else ⟨"", "", none⟩

/-- A `kind` executable whose listing starts with a blank line. -/
def blankLineTool (_ : List Event) (args : List String) : CmdResult :=
  if args = ["get", "clusters"] then ⟨"\nkind", "\nkind", none⟩ else ⟨"", "", none⟩

/-- A world in which the temporary file of cluster `dev` already exists and
cannot be written. -/
def staleWorld : World :=
  { sampleWorld steadyTool with
    files := fun p => if p = "/tmp/kind-config-dev.yaml" then some "stale" else none
    writeFault := fun p _ =>
      if p = "/tmp/kind-config-dev.yaml" then
        some ⟨"open /tmp/kind-config-dev.yaml: permission denied", some "stale"⟩
      else none }

/-- A world in which the temporary file of cluster `dev` cannot be removed. -/
def stickyWorld : World :=
  { sampleWorld steadyTool with
    removeFault := fun p =>
      if p = "/tmp/kind-config-dev.yaml" then
        some "remove /tmp/kind-config-dev.yaml: operation not permitted"
      else none }

/-- A world that holds one configuration file of the wrong kind. -/
def deploymentWorld : World :=
  { sampleWorld steadyTool with
    files := fun p => if p = "/etc/kind/deploy.yaml" then some "kind: Deployment" else none }

/-- A plan for cluster `dev` with the given inline configuration. -/
def inlinePlan (config : String) : Request :=
  ⟨{ nameOnly "dev" with KindConfig := .value config }, []⟩

/-- A plan for cluster `dev` with the given configuration path. -/
def pathPlan (path : String) : Request :=
  ⟨{ nameOnly "dev" with ConfigPath := .value path }, []⟩

/-- A plan for cluster `dev` with a node image and the wait flag, and with the
given two configuration sources. -/
def fullPlan (kindConfig configPath : TfString) : Request :=
  ⟨{ Name := .value "dev", KindConfig := kindConfig, ConfigPath := configPath,
     NodeImage := .value "kindest/node:v1.29.0", WaitForReady := .value true,
     Kubeconfig := .null, Endpoint := .null, Id := .null }, []⟩


/-! ## Diagnostics -/

theorem Diagnostics.mem_Append (ds new : List Diagnostic) (d : Diagnostic) :
    d ∈ Diagnostics.Append ds new ↔ d ∈ ds ∨ d ∈ new := by
  unfold Diagnostics.Append
  induction new generalizing ds with
  | nil => simp
  | cons x xs ih =>
    rw [List.foldl_cons, ih]
    by_cases hx : x ∈ ds
    · simp only [hx, if_true, List.mem_cons]
      constructor
      · rintro (h | h)
        · exact Or.inl h
        · exact Or.inr (Or.inr h)
      · rintro (h | h | h)
        · exact Or.inl h
        · exact Or.inl (h ▸ hx)
        · exact Or.inr h
    · simp only [hx, if_false, List.mem_append, List.mem_singleton, List.mem_cons]
      tauto

theorem Diagnostics.HasError_iff (ds : List Diagnostic) :
    Diagnostics.HasError ds = true ↔ ∃ d ∈ ds, d.severity = Severity.error := by
  simp [Diagnostics.HasError]

theorem Diagnostics.HasError_Append (ds new : List Diagnostic) :
    Diagnostics.HasError (Diagnostics.Append ds new) =
      (Diagnostics.HasError ds || Diagnostics.HasError new) := by
  rw [Bool.eq_iff_iff, Bool.or_eq_true, Diagnostics.HasError_iff, Diagnostics.HasError_iff,
    Diagnostics.HasError_iff]
  constructor
  · rintro ⟨d, hd, he⟩
    rcases (Diagnostics.mem_Append ds new d).1 hd with h | h
    · exact Or.inl ⟨d, h, he⟩
    · exact Or.inr ⟨d, h, he⟩
  · rintro (⟨d, hd, he⟩ | ⟨d, hd, he⟩)
    · exact ⟨d, (Diagnostics.mem_Append ds new d).2 (Or.inl hd), he⟩
    · exact ⟨d, (Diagnostics.mem_Append ds new d).2 (Or.inr hd), he⟩

theorem Diagnostics.HasError_Append_nil (ds : List Diagnostic) :
    Diagnostics.HasError (Diagnostics.Append [] ds) = Diagnostics.HasError ds := by
  rw [Diagnostics.HasError_Append]; simp [Diagnostics.HasError]

theorem Diagnostics.mem_AddError (ds : List Diagnostic) (s t : String) (d : Diagnostic) :
    d ∈ Diagnostics.AddError ds s t ↔ d ∈ ds ∨ d = ⟨Severity.error, s, t⟩ := by
  unfold Diagnostics.AddError
  rw [Diagnostics.mem_Append]; simp

theorem Diagnostics.HasError_AddError (ds : List Diagnostic) (s t : String) :
    Diagnostics.HasError (Diagnostics.AddError ds s t) = true := by
  unfold Diagnostics.AddError
  rw [Diagnostics.HasError_Append]; simp [Diagnostics.HasError]


/-! ## World bookkeeping -/

@[simp] theorem runKind_fst_log (w : World) (args : List String) :
    (runKind w args).1.log = w.log ++ [Event.exec args] := rfl

@[simp] theorem runKind_fst_files (w : World) (args : List String) :
    (runKind w args).1.files = w.files := rfl

@[simp] theorem runKind_fst_tool (w : World) (args : List String) :
    (runKind w args).1.tool = w.tool := rfl

@[simp] theorem runKind_fst_stateSet (w : World) (args : List String) :
    (runKind w args).1.stateSet = w.stateSet := rfl

@[simp] theorem runKind_fst_unmarshalKubeconfig (w : World) (args : List String) :
    (runKind w args).1.unmarshalKubeconfig = w.unmarshalKubeconfig := rfl

@[simp] theorem runKind_snd (w : World) (args : List String) :
    (runKind w args).2 = w.tool w.log args := rfl

theorem invocations_append (l₁ l₂ : List Event) :
    invocations (l₁ ++ l₂) = invocations l₁ ++ invocations l₂ := by
  induction l₁ with
  | nil => rfl
  | cons e es ih => cases e <;> simp [invocations, ih]

/-! ## Substring search -/

theorem startsWith_iff (s p : List Char) :
    startsWith s p = true ↔ ∃ t, s = p ++ t := by
  induction p generalizing s with
  | nil => simp [startsWith]
  | cons b p ih =>
    cases s with
    | nil => simp [startsWith]
    | cons a s =>
      simp only [startsWith, Bool.and_eq_true, beq_iff_eq, ih, List.cons_append, List.cons.injEq]
      constructor
      · rintro ⟨rfl, t, rfl⟩
        exact ⟨t, rfl, rfl⟩
      · rintro ⟨t, rfl, rfl⟩
        exact ⟨rfl, t, rfl⟩

theorem containsChars_iff (s sub : List Char) :
    containsChars s sub = true ↔ ∃ pre post, s = pre ++ sub ++ post := by
  induction s with
  | nil =>
    simp only [containsChars, startsWith_iff]
    constructor
    · rintro ⟨t, ht⟩
      exact ⟨[], t, by simpa using ht⟩
    · rintro ⟨pre, post, h⟩
      have h1 : pre ++ sub ++ post = [] := h.symm
      simp only [List.append_eq_nil] at h1
      exact ⟨[], by simp [h1.1.2]⟩
  | cons a s ih =>
    simp only [containsChars, Bool.or_eq_true, startsWith_iff, ih]
    constructor
    · rintro (⟨t, ht⟩ | ⟨pre, post, h⟩)
      · exact ⟨[], t, by simpa using ht⟩
      · exact ⟨a :: pre, post, by simp [h]⟩
    · rintro ⟨pre, post, h⟩
      cases pre with
      | nil => exact Or.inl ⟨post, by simpa using h⟩
      | cons x pre =>
        simp only [List.cons_append, List.cons.injEq] at h
        exact Or.inr ⟨pre, post, h.2⟩

theorem Contains_iff (s substr : String) :
    Contains s substr = true ↔ ∃ pre post : String, s = pre ++ substr ++ post := by
  unfold Contains
  rw [containsChars_iff]
  constructor
  · rintro ⟨pre, post, h⟩
    refine ⟨⟨pre⟩, ⟨post⟩, ?_⟩
    apply String.ext
    simpa using h
  · rintro ⟨pre, post, h⟩
    exact ⟨pre.data, post.data, by rw [h]; simp⟩

/-! ## What each helper does to the world -/

theorem osReadFile_fst (w : World) (path : String) :
    (osReadFile w path).1 = { w with log := w.log ++ [Event.readFile path] } := by
  unfold osReadFile
  split
  · rfl
  · split
    · rfl
    · split <;> rfl

theorem validateKindConfig_fst (w : World) (path : String) :
    (validateKindConfig w path).1 = { w with log := w.log ++ [Event.readFile path] } := by
  unfold validateKindConfig
  simp only []
  split
  · exact osReadFile_fst w path
  · split
    · exact osReadFile_fst w path
    · split <;> exact osReadFile_fst w path

theorem getKubeconfig_fst (w : World) (name : String) :
    (getKubeconfig w name).1 =
      { w with log := w.log ++ [Event.exec ["get", "kubeconfig", "--name", name]] } := by
  unfold getKubeconfig
  simp only []
  split <;> rfl

theorem getClusterEndpoint_fst (w : World) (name : String) :
    (getClusterEndpoint w name).1 =
      { w with log := w.log ++ [Event.exec ["get", "kubeconfig", "--name", name]] } := by
  unfold getClusterEndpoint
  simp only []
  split
  · rfl
  · split
    · rfl
    · split <;> rfl

theorem clusterExists_fst (w : World) (name : String) :
    (clusterExists w name).1 = { w with log := w.log ++ [Event.exec ["get", "clusters"]] } := by
  unfold clusterExists
  simp only []
  split <;> rfl

theorem osWriteFile_fst_stateSet (w : World) (path data : String) :
    (osWriteFile w path data).1.stateSet = w.stateSet := by
  unfold osWriteFile
  split <;> rfl

theorem osWriteFile_fst_log (w : World) (path data : String) :
    (osWriteFile w path data).1.log = w.log ++ [Event.writeFile path data] := by
  unfold osWriteFile
  split <;> rfl

/-- Every diagnostic that the second half of `Create` leaves in the response was
there before, comes from `State.Set`, or carries one of its four summaries. -/
theorem Create_rest_diag (w : World) (resp : Response) (data : ClusterResourceModel)
    (n cf : String) (d : Diagnostic)
    (hd : d ∈ (Create_rest w resp data n cf).2.Diagnostics) :
    d ∈ resp.Diagnostics ∨ (∃ m, d ∈ w.stateSet m) ∨
      d.summary = "Invalid Kind configuration" ∨ d.summary = "Failed to create Kind cluster" ∨
      d.summary = "Failed to get kubeconfig" ∨ d.summary = "Failed to get cluster endpoint" := by
  unfold Create_rest at hd
  simp only [] at hd
  split at hd
  · simp only [Response.AddError, Diagnostics.mem_AddError] at hd
    rcases hd with h | h
    · exact Or.inl h
    · subst h; simp
  · split at hd
    · simp only [Response.AddError, Diagnostics.mem_AddError] at hd
      rcases hd with h | h
      · exact Or.inl h
      · subst h; simp
    · split at hd
      · simp only [Response.AddError, Diagnostics.mem_AddError] at hd
        rcases hd with h | h
        · exact Or.inl h
        · subst h; simp
      · split at hd
        · simp only [Response.AddError, Diagnostics.mem_AddError] at hd
          rcases hd with h | h
          · exact Or.inl h
          · subst h; simp
        · simp only [Response.SetState, Diagnostics.mem_Append] at hd
          rcases hd with h | h
          · exact Or.inl h
          · rw [getClusterEndpoint_fst, getKubeconfig_fst] at h
            have hv : (if cf ≠ "" then validateKindConfig w cf else (w, none)).1.stateSet
                = w.stateSet := by
              split
              · rw [validateKindConfig_fst]
              · rfl
            simp only [runKind_fst_stateSet, hv] at h
            exact Or.inr (Or.inl ⟨_, h⟩)

/-! ## C1 -/

/-- C1. When the plan decodes without error and `kind_config` and `config_path`
are both null, `Create` returns with the error 'Configuration Required'; when
both are non-null it returns with the error 'Conflicting Configuration'; in
both cases the world is left exactly as it was (no process run, no file
written) and no state is set.  When exactly one of the two is null, every
diagnostic of the response that carries one of these two summaries comes from
the framework (plan decoding or `State.Set`), not from `Create`. -/
theorem Create_source_check (w : World) (req : Request)
    (hget : Diagnostics.HasError req.getDiags = false) :
    (req.data.KindConfig.IsNull = true ∧ req.data.ConfigPath.IsNull = true →
      (Create w req).1 = w ∧ (Create w req).2.State = none ∧
      Diagnostics.HasError (Create w req).2.Diagnostics = true ∧
      (⟨Severity.error, "Configuration Required",
        "Either 'kind_config' or 'config_path' must be specified"⟩ : Diagnostic)
          ∈ (Create w req).2.Diagnostics) ∧
    (req.data.KindConfig.IsNull = false ∧ req.data.ConfigPath.IsNull = false →
      (Create w req).1 = w ∧ (Create w req).2.State = none ∧
      Diagnostics.HasError (Create w req).2.Diagnostics = true ∧
      (⟨Severity.error, "Conflicting Configuration",
        "Only one of 'kind_config' or 'config_path' should be specified"⟩ : Diagnostic)
          ∈ (Create w req).2.Diagnostics) ∧
    (req.data.KindConfig.IsNull ≠ req.data.ConfigPath.IsNull →
      ∀ d ∈ (Create w req).2.Diagnostics,
        (d.summary = "Configuration Required" ∨ d.summary = "Conflicting Configuration") →
        d ∈ req.getDiags ∨ ∃ m, d ∈ w.stateSet m) := by
  have h0 : Diagnostics.HasError (Diagnostics.Append [] req.getDiags) = false := by
    rw [Diagnostics.HasError_Append_nil]; exact hget
  refine ⟨?_, ?_, ?_⟩
  · rintro ⟨hk, hc⟩
    simp [Create, h0, hk, hc, Response.AddError, Diagnostics.HasError_AddError,
      Diagnostics.mem_AddError]
  · rintro ⟨hk, hc⟩
    simp [Create, h0, hk, hc, Response.AddError, Diagnostics.HasError_AddError,
      Diagnostics.mem_AddError]
  · intro hne d hd hs
    have hrest : ∀ (w1 : World) (cf : String), w1.stateSet = w.stateSet →
        d ∈ (Create_rest w1 ⟨Diagnostics.Append [] req.getDiags, none⟩ req.data
          req.data.Name.ValueString cf).2.Diagnostics →
        d ∈ req.getDiags ∨ ∃ m, d ∈ w.stateSet m := by
      intro w1 cf hw1 h
      rcases Create_rest_diag _ _ _ _ _ d h with h | ⟨m, h⟩ | h | h | h | h
      · simp only [Diagnostics.mem_Append, List.not_mem_nil, false_or] at h
        exact Or.inl h
      · exact Or.inr ⟨m, hw1 ▸ h⟩
      all_goals rcases hs with hs | hs <;> rw [hs] at h <;> exact absurd h (by decide)
    unfold Create at hd
    simp only [h0] at hd
    cases hk : req.data.KindConfig.IsNull <;> cases hc : req.data.ConfigPath.IsNull
    · simp [hk, hc] at hne
    · simp only [hk, hc] at hd
      simp only [Bool.false_and, Bool.not_false, Bool.and_true, Bool.not_true, Bool.true_and,
        Bool.false_eq_true, if_false, if_true] at hd
      split at hd
      · simp only [Response.AddError, Diagnostics.mem_AddError, Diagnostics.mem_Append,
          List.not_mem_nil, false_or] at hd
        rcases hd with h | h
        · exact Or.inl h
        · subst h
          rcases hs with hs | hs <;> simp at hs
      · exact hrest _ _ (osWriteFile_fst_stateSet _ _ _) hd
    · simp only [hk, hc] at hd
      simp only [Bool.false_and, Bool.not_false, Bool.and_true, Bool.not_true, Bool.true_and,
        Bool.and_false, Bool.false_eq_true, if_false, if_true] at hd
      exact hrest _ _ rfl hd
    · simp [hk, hc] at hne


/-! ## C4 -/

/-- C4. When the prior state decodes without error, `Delete` runs
`kind delete cluster --name <name>` once, and it reports an error if and only
if that command failed and its combined output does not contain the substring
"not found".  So a failing delete whose output contains "not found" succeeds,
and a delete that exits with status zero succeeds whatever it printed. -/
theorem Delete_error_iff (w : World) (req : Request)
    (hget : Diagnostics.HasError req.getDiags = false) :
    (Diagnostics.HasError (Delete w req).2.Diagnostics = true ↔
      (w.tool w.log ["delete", "cluster", "--name", req.data.Name.ValueString]).err ≠ none ∧
      ¬ ∃ pre post : String,
        (w.tool w.log ["delete", "cluster", "--name", req.data.Name.ValueString]).combined
          = pre ++ "not found" ++ post) ∧
    (Delete w req).1.log =
      w.log ++ [Event.exec ["delete", "cluster", "--name", req.data.Name.ValueString]] := by
  have h0 : Diagnostics.HasError (Diagnostics.Append [] req.getDiags) = false := by
    rw [Diagnostics.HasError_Append_nil]; exact hget
  rw [← Contains_iff]
  unfold Delete
  simp only [h0, Bool.false_eq_true, if_false, runKind_snd]
  split
  · rename_i err herr
    by_cases hc : Contains
        (w.tool w.log ["delete", "cluster", "--name", req.data.Name.ValueString]).combined
        "not found" = true
    · simp [hc, h0, herr]
    · simp [hc, herr, Response.AddError, Diagnostics.HasError_AddError]
  · rename_i herr
    simp [h0, herr]

/-! ## C7 -/

/-- C7. When `kind get kubeconfig --name <name>` succeeds: if its output parses,
`getClusterEndpoint` fails with 'no clusters found in kubeconfig' exactly when
the `clusters` list of the document is empty, and otherwise returns the
`cluster.server` of the first entry whatever the later entries are; if the
output does not parse, it fails with the parse error. -/
theorem getClusterEndpoint_first_cluster (w : World) (name : String)
    (hrun : (w.tool w.log ["get", "kubeconfig", "--name", name]).err = none) :
    (∀ doc : Kubeconfig,
      w.unmarshalKubeconfig (w.tool w.log ["get", "kubeconfig", "--name", name]).stdout
        = .ok doc →
      ((getClusterEndpoint w name).2 = .error "no clusters found in kubeconfig" ↔
        doc.Clusters = []) ∧
      (∀ c rest, doc.Clusters = c :: rest →
        (getClusterEndpoint w name).2 = .ok c.Cluster.Server)) ∧
    (∀ e : String,
      w.unmarshalKubeconfig (w.tool w.log ["get", "kubeconfig", "--name", name]).stdout
        = .error e →
      (getClusterEndpoint w name).2 = .error ("failed to parse kubeconfig: " ++ e)) := by
  refine ⟨?_, ?_⟩
  · intro doc hdoc
    unfold getClusterEndpoint
    simp only [runKind_snd, hrun, hdoc]
    cases hcl : doc.Clusters with
    | nil => simp
    | cons c rest => simp
  · intro e he
    unfold getClusterEndpoint
    simp only [runKind_snd, hrun, he]


/-- The second half of `Create` changes nothing of the world but its log, and
the events it adds are, in this order: the read of the configuration file (when
the path is not empty); then, unless validation failed, the `kind create
cluster` run followed by at most two `kind get kubeconfig` runs. -/
theorem Create_rest_trace (w : World) (resp : Response) (data : ClusterResourceModel)
    (n cf : String) :
    ∃ post, (Create_rest w resp data n cf).1 = { w with log := w.log ++ post } ∧
      ((cf ≠ "" ∧ (validateKindConfig w cf).2 ≠ none ∧ post = [Event.readFile cf]) ∨
       ((cf = "" ∨ (validateKindConfig w cf).2 = none) ∧ ∃ k, k ≤ 2 ∧
          post = (if cf ≠ "" then [Event.readFile cf] else []) ++
            Event.exec (createArgs data n cf) ::
              List.replicate k (Event.exec ["get", "kubeconfig", "--name", n]))) := by
  by_cases hcf : cf = ""
  · subst hcf
    unfold Create_rest
    simp only [ne_eq, not_true_eq_false, if_false]
    split
    · refine ⟨[Event.exec (createArgs data n "")], rfl, Or.inr ⟨Or.inl trivial, 0, by omega, rfl⟩⟩
    · split
      · refine ⟨[Event.exec (createArgs data n ""),
          Event.exec ["get", "kubeconfig", "--name", n]], ?_, Or.inr ⟨Or.inl trivial, 1, by omega, rfl⟩⟩
        rw [getKubeconfig_fst]
        simp [runKind]
      · split
        all_goals
          refine ⟨[Event.exec (createArgs data n ""),
            Event.exec ["get", "kubeconfig", "--name", n],
            Event.exec ["get", "kubeconfig", "--name", n]], ?_,
            Or.inr ⟨Or.inl trivial, 2, by omega, rfl⟩⟩
          rw [getClusterEndpoint_fst, getKubeconfig_fst]
          simp [runKind]
  · unfold Create_rest
    simp only [ne_eq, hcf, not_false_eq_true, if_true]
    split
    · rename_i err herr
      refine ⟨[Event.readFile cf], ?_, Or.inl ⟨trivial, by simp [herr], rfl⟩⟩
      rw [validateKindConfig_fst]
    · rename_i hv
      split
      · refine ⟨[Event.readFile cf, Event.exec (createArgs data n cf)], ?_,
          Or.inr ⟨Or.inr hv, 0, by omega, rfl⟩⟩
        rw [validateKindConfig_fst]
        simp [runKind]
      · split
        · refine ⟨[Event.readFile cf, Event.exec (createArgs data n cf),
            Event.exec ["get", "kubeconfig", "--name", n]], ?_,
            Or.inr ⟨Or.inr hv, 1, by omega, rfl⟩⟩
          rw [getKubeconfig_fst, validateKindConfig_fst]
          simp [runKind]
        · split
          all_goals
            refine ⟨[Event.readFile cf, Event.exec (createArgs data n cf),
              Event.exec ["get", "kubeconfig", "--name", n],
              Event.exec ["get", "kubeconfig", "--name", n]], ?_,
              Or.inr ⟨Or.inr hv, 2, by omega, rfl⟩⟩
            rw [getClusterEndpoint_fst, getKubeconfig_fst, validateKindConfig_fst]
            simp [runKind]


theorem tempFilePath_ne_empty (n : String) : tempFilePath n ≠ "" := by
  intro h
  have h1 := congrArg String.length h
  simp only [tempFilePath, String.length_append] at h1
  have h2 : ".yaml".length = 5 := by decide
  have h3 : "".length = 0 := by decide
  omega

theorem validateKindConfig_wrong_kind (w : World) (path bytes : String) (doc : Cluster)
    (hread : (osReadFile w path).2 = .ok bytes) (hdoc : w.unmarshalCluster bytes = .ok doc)
    (hkind : doc.Kind ≠ "Cluster") :
    (validateKindConfig w path).2 = some ("kind must be 'Cluster', got '" ++ doc.Kind ++ "'") := by
  unfold validateKindConfig
  simp only [hread, hdoc, hkind, ne_eq, not_false_eq_true, if_true]

theorem Create_rest_invalid (w : World) (resp : Response) (data : ClusterResourceModel)
    (n cf err : String) (hcf : cf ≠ "") (hv : (validateKindConfig w cf).2 = some err) :
    Create_rest w resp data n cf =
      ({ w with log := w.log ++ [Event.readFile cf] },
        resp.AddError "Invalid Kind configuration" ("Error validating config: " ++ err)) := by
  unfold Create_rest
  simp only [ne_eq, hcf, not_false_eq_true, if_true, hv, validateKindConfig_fst]

theorem osReadFile_after_write (w : World) (path data : String) (hp : path ≠ "")
    (hw : w.writeFault path data = none) (hr : w.readFault path = none) :
    (osReadFile (osWriteFile w path data).1 path).2 = .ok data := by
  unfold osWriteFile
  simp only [hw]
  unfold osReadFile
  simp [hp, hr]

theorem osWriteFile_ok (w : World) (path data : String) (hw : w.writeFault path data = none) :
    osWriteFile w path data =
      ({ w with files := fun p => if p = path then some data else w.files p,
                log := w.log ++ [Event.writeFile path data] }, none) := by
  unfold osWriteFile
  simp only [hw]

theorem osRemove_fst_log (w : World) (path : String) :
    (osRemove w path).1.log = w.log ++ [Event.remove path] := by
  unfold osRemove
  split <;> rfl

/-! ## C2 -/

/-- C2. Let the plan decode without error and name exactly one configuration
source, and let the resolved configuration file (the `config_path` file, or the
temporary file into which `kind_config` was written) hold a document that
parses and whose `kind` is not exactly "Cluster".  Then `validateKindConfig`
returns the error "kind must be 'Cluster', got '<kind>'" on that file, `Create`
reports it under 'Invalid Kind configuration', sets no state, and runs no
`kind` command at all. -/
theorem Create_rejects_wrong_kind (w : World) (req : Request) (doc : Cluster)
    (hget : Diagnostics.HasError req.getDiags = false)
    (hfile :
      (req.data.KindConfig.IsNull = true ∧ req.data.ConfigPath.IsNull = false ∧
        ∃ bytes, (osReadFile w req.data.ConfigPath.ValueString).2 = .ok bytes ∧
          w.unmarshalCluster bytes = .ok doc) ∨
      (req.data.KindConfig.IsNull = false ∧ req.data.ConfigPath.IsNull = true ∧
        w.writeFault (tempFilePath req.data.Name.ValueString)
          req.data.KindConfig.ValueString = none ∧
        w.readFault (tempFilePath req.data.Name.ValueString) = none ∧
        w.unmarshalCluster req.data.KindConfig.ValueString = .ok doc))
    (hkind : doc.Kind ≠ "Cluster") :
    (validateKindConfig
        (if req.data.ConfigPath.IsNull then
          (osWriteFile w (tempFilePath req.data.Name.ValueString)
            req.data.KindConfig.ValueString).1
         else w)
        (if req.data.ConfigPath.IsNull then tempFilePath req.data.Name.ValueString
         else req.data.ConfigPath.ValueString)).2
      = some ("kind must be 'Cluster', got '" ++ doc.Kind ++ "'") ∧
    (⟨Severity.error, "Invalid Kind configuration",
      "Error validating config: " ++ ("kind must be 'Cluster', got '" ++ doc.Kind ++ "'")⟩ :
        Diagnostic) ∈ (Create w req).2.Diagnostics ∧
    (Create w req).2.State = none ∧
    invocations (Create w req).1.log = invocations w.log := by
  have h0 : Diagnostics.HasError (Diagnostics.Append [] req.getDiags) = false := by
    rw [Diagnostics.HasError_Append_nil]; exact hget
  rcases hfile with ⟨hk, hc, bytes, hread, hdoc⟩ | ⟨hk, hc, hwf, hrf, hdoc⟩
  · have hcf : req.data.ConfigPath.ValueString ≠ "" := by
      intro h
      rw [h] at hread
      simp [osReadFile] at hread
    have hv := validateKindConfig_wrong_kind w _ bytes doc hread hdoc hkind
    have hrest := Create_rest_invalid w ⟨Diagnostics.Append [] req.getDiags, none⟩ req.data
      req.data.Name.ValueString _ _ hcf hv
    refine ⟨by simpa [hc] using hv, ?_⟩
    unfold Create
    simp only [h0, hk, hc, hrest]
    simp [Response.AddError, Diagnostics.mem_AddError, invocations_append, invocations]
  · have hread := osReadFile_after_write w _ _ (tempFilePath_ne_empty _) hwf hrf
    have hdoc1 : (osWriteFile w (tempFilePath req.data.Name.ValueString)
        req.data.KindConfig.ValueString).1.unmarshalCluster req.data.KindConfig.ValueString
          = .ok doc := by
      rw [osWriteFile_ok w _ _ hwf]; exact hdoc
    have hv := validateKindConfig_wrong_kind _ _ _ doc hread hdoc1 hkind
    have hrest := Create_rest_invalid _ ⟨Diagnostics.Append [] req.getDiags, none⟩ req.data
      req.data.Name.ValueString _ _ (tempFilePath_ne_empty _) hv
    refine ⟨by simpa [hc] using hv, ?_⟩
    unfold Create
    simp only [h0, hk, hc, hrest]
    simp [Response.AddError, Diagnostics.mem_AddError, invocations_append, invocations,
      osWriteFile_ok w _ _ hwf, osRemove_fst_log]


/-! ## The three ways through `Create` once the source check has passed -/

theorem Create_with_path (w : World) (req : Request)
    (hget : Diagnostics.HasError req.getDiags = false)
    (hc : req.data.ConfigPath.IsNull = false) (hk : req.data.KindConfig.IsNull = true) :
    Create w req =
      Create_rest w ⟨Diagnostics.Append [] req.getDiags, none⟩ req.data
        req.data.Name.ValueString req.data.ConfigPath.ValueString := by
  have h0 : Diagnostics.HasError (Diagnostics.Append [] req.getDiags) = false := by
    rw [Diagnostics.HasError_Append_nil]; exact hget
  unfold Create
  simp [h0, hk, hc]

theorem Create_inline_written (w : World) (req : Request)
    (hget : Diagnostics.HasError req.getDiags = false)
    (hc : req.data.ConfigPath.IsNull = true) (hk : req.data.KindConfig.IsNull = false)
    (hw : w.writeFault (tempFilePath req.data.Name.ValueString)
      req.data.KindConfig.ValueString = none) :
    Create w req =
      ((osRemove
          (Create_rest
            (osWriteFile w (tempFilePath req.data.Name.ValueString)
              req.data.KindConfig.ValueString).1
            ⟨Diagnostics.Append [] req.getDiags, none⟩ req.data req.data.Name.ValueString
            (tempFilePath req.data.Name.ValueString)).1
          (tempFilePath req.data.Name.ValueString)).1,
        (Create_rest
          (osWriteFile w (tempFilePath req.data.Name.ValueString)
            req.data.KindConfig.ValueString).1
          ⟨Diagnostics.Append [] req.getDiags, none⟩ req.data req.data.Name.ValueString
          (tempFilePath req.data.Name.ValueString)).2) := by
  have h0 : Diagnostics.HasError (Diagnostics.Append [] req.getDiags) = false := by
    rw [Diagnostics.HasError_Append_nil]; exact hget
  unfold Create
  simp [h0, hk, hc, osWriteFile_ok w _ _ hw]

theorem Create_inline_unwritten (w : World) (req : Request) (f : WriteFault)
    (hget : Diagnostics.HasError req.getDiags = false)
    (hc : req.data.ConfigPath.IsNull = true) (hk : req.data.KindConfig.IsNull = false)
    (hw : w.writeFault (tempFilePath req.data.Name.ValueString)
      req.data.KindConfig.ValueString = some f) :
    Create w req =
      ({ w with
          files := fun p =>
            if p = tempFilePath req.data.Name.ValueString then f.left else w.files p,
          log := w.log ++ [Event.writeFile (tempFilePath req.data.Name.ValueString)
            req.data.KindConfig.ValueString] },
        Response.AddError ⟨Diagnostics.Append [] req.getDiags, none⟩
          "Failed to create temporary config file" ("Error: " ++ f.err)) := by
  have h0 : Diagnostics.HasError (Diagnostics.Append [] req.getDiags) = false := by
    rw [Diagnostics.HasError_Append_nil]; exact hget
  unfold Create
  simp [h0, hk, hc, osWriteFile, hw]

theorem invocations_replicate (k : Nat) (a : List String) :
    invocations (List.replicate k (Event.exec a)) = List.replicate k a := by
  induction k with
  | zero => rfl
  | succ k ih => simp [List.replicate_succ, invocations, ih]

theorem createArgs_eq (data : ClusterResourceModel) (n cf : String) :
    createArgs data n cf =
      ["create", "cluster", "--name", n] ++
        (if cf = "" then [] else ["--config", cf]) ++
        (if data.NodeImage.IsNull then [] else ["--image", data.NodeImage.ValueString]) ++
        (if data.WaitForReady = TfBool.value true then ["--wait", "300s"] else []) := by
  unfold createArgs
  by_cases h1 : cf = "" <;> cases h2 : data.NodeImage.IsNull <;>
    rcases h3 : data.WaitForReady with _ | _ | b
  all_goals first
    | (cases b <;> simp [h1, h2, h3, TfBool.IsNull, TfBool.ValueBool])
    | simp [h1, h2, h3, TfBool.IsNull, TfBool.ValueBool]

theorem invocations_trace (cf : String) (args : List String) (k : Nat) (a : List String) :
    invocations ((if cf ≠ "" then [Event.readFile cf] else []) ++
      Event.exec args :: List.replicate k (Event.exec a)) = args :: List.replicate k a := by
  by_cases h : cf = "" <;> simp [h, invocations, invocations_replicate]

/-! ## C3 -/

/-- C3, as the code has it.  Let the plan decode without error and name exactly
one configuration source, let the temporary file be written when the source is
inline, and let validation not fail.  Then the first `kind` command of the call
has exactly the arguments `create cluster --name <name>`; then `--config f` if
and only if `f` is not the empty string, where `f` is `config_path` unchanged
when that is the source and "/tmp/kind-config-<name>.yaml" when the source is
inline; then `--image <node_image>` if and only if `node_image` is not null;
then `--wait 300s` if and only if `wait_for_ready` is true. -/
theorem Create_argument_list (w : World) (req : Request)
    (hget : Diagnostics.HasError req.getDiags = false)
    (hpass :
      (req.data.KindConfig.IsNull = true ∧ req.data.ConfigPath.IsNull = false ∧
        (req.data.ConfigPath.ValueString = "" ∨
          (validateKindConfig w req.data.ConfigPath.ValueString).2 = none)) ∨
      (req.data.KindConfig.IsNull = false ∧ req.data.ConfigPath.IsNull = true ∧
        w.writeFault (tempFilePath req.data.Name.ValueString)
          req.data.KindConfig.ValueString = none ∧
        (validateKindConfig
          (osWriteFile w (tempFilePath req.data.Name.ValueString)
            req.data.KindConfig.ValueString).1
          (tempFilePath req.data.Name.ValueString)).2 = none)) :
    ∃ later, invocations (Create w req).1.log = invocations w.log ++
      ((["create", "cluster", "--name", req.data.Name.ValueString] ++
        (if (if req.data.ConfigPath.IsNull then tempFilePath req.data.Name.ValueString
              else req.data.ConfigPath.ValueString) = "" then []
         else ["--config",
           if req.data.ConfigPath.IsNull then tempFilePath req.data.Name.ValueString
           else req.data.ConfigPath.ValueString]) ++
        (if req.data.NodeImage.IsNull then []
         else ["--image", req.data.NodeImage.ValueString]) ++
        (if req.data.WaitForReady = TfBool.value true then ["--wait", "300s"] else []))
        :: later) := by
  rcases hpass with ⟨hk, hc, hv⟩ | ⟨hk, hc, hw, hv⟩
  · rw [Create_with_path w req hget hc hk]
    obtain ⟨post, hworld, hpost⟩ := Create_rest_trace w ⟨Diagnostics.Append [] req.getDiags, none⟩
      req.data req.data.Name.ValueString req.data.ConfigPath.ValueString
    rw [hworld]
    rcases hpost with ⟨hne, hbad, -⟩ | ⟨-, k, -, hk2⟩
    · rcases hv with hv | hv
      · exact absurd hv hne
      · exact absurd hv hbad
    · refine ⟨List.replicate k ["get", "kubeconfig", "--name", req.data.Name.ValueString], ?_⟩
      have hinv := invocations_trace req.data.ConfigPath.ValueString
        (createArgs req.data req.data.Name.ValueString req.data.ConfigPath.ValueString) k
        ["get", "kubeconfig", "--name", req.data.Name.ValueString]
      rw [← hk2] at hinv
      simp only [invocations_append, hinv, createArgs_eq, hc]
      simp
  · rw [Create_inline_written w req hget hc hk hw]
    obtain ⟨post, hworld, hpost⟩ := Create_rest_trace
      (osWriteFile w (tempFilePath req.data.Name.ValueString)
        req.data.KindConfig.ValueString).1
      ⟨Diagnostics.Append [] req.getDiags, none⟩
      req.data req.data.Name.ValueString (tempFilePath req.data.Name.ValueString)
    rw [hworld]
    rcases hpost with ⟨-, hbad, -⟩ | ⟨-, k, -, hk2⟩
    · exact absurd hv hbad
    · refine ⟨List.replicate k ["get", "kubeconfig", "--name", req.data.Name.ValueString], ?_⟩
      have hinv := invocations_trace (tempFilePath req.data.Name.ValueString)
        (createArgs req.data req.data.Name.ValueString (tempFilePath req.data.Name.ValueString))
        k ["get", "kubeconfig", "--name", req.data.Name.ValueString]
      rw [← hk2] at hinv
      simp only [osRemove_fst_log, osWriteFile_fst_log, invocations_append, hinv,
        createArgs_eq, hc]
      simp [invocations]

/-- If a list splits at a `kind` run, every event that precedes the first `kind`
run of the list lies before the split. -/
theorem mem_before_exec (hd tl pre post : List Event) (e : Event) (a : List String)
    (h : hd ++ e :: tl = pre ++ Event.exec a :: post)
    (hhd : ∀ x ∈ hd, ∀ b, x ≠ Event.exec b) (he : ∀ b, e ≠ Event.exec b) : e ∈ pre := by
  induction hd generalizing pre with
  | nil =>
    cases pre with
    | nil =>
      simp only [List.nil_append, List.cons.injEq] at h
      exact absurd h.1 (he a)
    | cons x pre =>
      simp only [List.nil_append, List.cons_append, List.cons.injEq] at h
      rw [h.1]
      exact List.mem_cons_self _ _
  | cons y hd ih =>
    cases pre with
    | nil =>
      simp only [List.nil_append, List.cons_append, List.cons.injEq] at h
      exact absurd h.1 (hhd y (List.mem_cons_self _ _) a)
    | cons x pre =>
      simp only [List.cons_append, List.cons.injEq] at h
      exact List.mem_cons_of_mem _
        (ih pre h.2 (fun z hz => hhd z (List.mem_cons_of_mem _ hz)))

/-! ## C10 -/

/-- C10, as the code has it.  Let the plan decode without error and name exactly
one configuration source whose resolved file path `f` is not the empty string:
an inline `kind_config` (the empty document included), or a `config_path` with
a non-empty value.  Then before every `kind` command that the call runs,
`validateKindConfig` has read `f`, and it returned no error.  (With a
`config_path` whose value is the empty string the guard `configFile != ""`
skips validation.) -/
theorem Create_validates_before_running (w : World) (req : Request)
    (hget : Diagnostics.HasError req.getDiags = false)
    (hone : req.data.KindConfig.IsNull ≠ req.data.ConfigPath.IsNull)
    (hpath : req.data.ConfigPath.IsNull = false → req.data.ConfigPath.ValueString ≠ "")
    (pre post : List Event) (args : List String)
    (hrun : (Create w req).1.log = w.log ++ pre ++ Event.exec args :: post) :
    Event.readFile
        (if req.data.ConfigPath.IsNull then tempFilePath req.data.Name.ValueString
         else req.data.ConfigPath.ValueString) ∈ pre ∧
    (validateKindConfig
        (if req.data.ConfigPath.IsNull then
          (osWriteFile w (tempFilePath req.data.Name.ValueString)
            req.data.KindConfig.ValueString).1
         else w)
        (if req.data.ConfigPath.IsNull then tempFilePath req.data.Name.ValueString
         else req.data.ConfigPath.ValueString)).2 = none := by
  rw [List.append_assoc] at hrun
  cases hc : req.data.ConfigPath.IsNull
  · have hk : req.data.KindConfig.IsNull = true := by
      cases h : req.data.KindConfig.IsNull
      · exact absurd (h.trans hc.symm) hone
      · rfl
    have hcf := hpath hc
    rw [Create_with_path w req hget hc hk] at hrun
    obtain ⟨tr, hworld, htr⟩ := Create_rest_trace w ⟨Diagnostics.Append [] req.getDiags, none⟩
      req.data req.data.Name.ValueString req.data.ConfigPath.ValueString
    rw [hworld] at hrun
    have hrun1 := List.append_cancel_left hrun
    simp only [Bool.false_eq_true, if_false]
    rcases htr with ⟨-, -, htr⟩ | ⟨hv, k, -, htr⟩
    · rw [htr] at hrun1
      have : Event.exec args ∈ [Event.readFile req.data.ConfigPath.ValueString] := by
        rw [hrun1]; simp
      simp at this
    · rcases hv with hv | hv
      · exact absurd hv hcf
      · refine ⟨?_, hv⟩
        rw [htr] at hrun1
        simp only [ne_eq, hcf, not_false_eq_true, if_true] at hrun1
        exact mem_before_exec [] _ pre post _ args hrun1 (by simp) (by simp)
  · have hk : req.data.KindConfig.IsNull = false := by
      cases h : req.data.KindConfig.IsNull
      · rfl
      · exact absurd (h.trans hc.symm) hone
    simp only [if_true]
    cases hw : w.writeFault (tempFilePath req.data.Name.ValueString)
        req.data.KindConfig.ValueString with
    | some f =>
      rw [Create_inline_unwritten w req f hget hc hk hw] at hrun
      have hrun1 := List.append_cancel_left hrun
      have : Event.exec args ∈ [Event.writeFile (tempFilePath req.data.Name.ValueString)
          req.data.KindConfig.ValueString] := by
        rw [hrun1]; simp
      simp at this
    | none =>
      rw [Create_inline_written w req hget hc hk hw] at hrun
      obtain ⟨tr, hworld, htr⟩ := Create_rest_trace
        (osWriteFile w (tempFilePath req.data.Name.ValueString)
          req.data.KindConfig.ValueString).1
        ⟨Diagnostics.Append [] req.getDiags, none⟩
        req.data req.data.Name.ValueString (tempFilePath req.data.Name.ValueString)
      rw [osRemove_fst_log, hworld] at hrun
      simp only [osWriteFile_fst_log, List.append_assoc] at hrun
      have hrun1 := List.append_cancel_left hrun
      rcases htr with ⟨-, -, htr⟩ | ⟨hv, k, -, htr⟩
      · rw [htr] at hrun1
        have : Event.exec args ∈ [Event.writeFile (tempFilePath req.data.Name.ValueString)
            req.data.KindConfig.ValueString] ++
            ([Event.readFile (tempFilePath req.data.Name.ValueString)] ++
              [Event.remove (tempFilePath req.data.Name.ValueString)]) := by
          rw [hrun1]; simp
        simp at this
      · rcases hv with hv | hv
        · exact absurd hv (tempFilePath_ne_empty _)
        · refine ⟨?_, hv⟩
          rw [htr] at hrun1
          simp only [ne_eq, tempFilePath_ne_empty, not_false_eq_true, if_true] at hrun1
          exact mem_before_exec [Event.writeFile (tempFilePath req.data.Name.ValueString)
            req.data.KindConfig.ValueString] _ pre post _ args (by simpa using hrun1)
            (by simp) (by simp)


theorem osRemove_ok_files (w : World) (path : String) (h : w.removeFault path = none) :
    (osRemove w path).1.files = fun p => if p = path then none else w.files p := by
  unfold osRemove
  simp only [h]

/-! ## C6 -/

/-- C6, as the code has it.  Let the plan decode without error with an inline
`kind_config` and a null `config_path`, let the write of the temporary file
"/tmp/kind-config-<name>.yaml" succeed and let `os.Remove` not fail on it.
Then, whatever validation and the `kind` commands do: right after the write
the file holds exactly the `kind_config` string, and reading it back returns
that string; between the write and the final removal the call only reads
files and runs `kind`; and when `Create` returns the file does not exist,
while every other file is as it was. -/
theorem Create_temp_file_lifetime (w : World) (req : Request)
    (hget : Diagnostics.HasError req.getDiags = false)
    (hc : req.data.ConfigPath.IsNull = true) (hk : req.data.KindConfig.IsNull = false)
    (hw : w.writeFault (tempFilePath req.data.Name.ValueString)
      req.data.KindConfig.ValueString = none)
    (hrm : w.removeFault (tempFilePath req.data.Name.ValueString) = none) :
    (osWriteFile w (tempFilePath req.data.Name.ValueString)
        req.data.KindConfig.ValueString).1.files (tempFilePath req.data.Name.ValueString)
      = some req.data.KindConfig.ValueString ∧
    (w.readFault (tempFilePath req.data.Name.ValueString) = none →
      (osReadFile
        (osWriteFile w (tempFilePath req.data.Name.ValueString)
          req.data.KindConfig.ValueString).1
        (tempFilePath req.data.Name.ValueString)).2 = .ok req.data.KindConfig.ValueString) ∧
    (∃ mid, (Create w req).1.log =
        w.log ++
          Event.writeFile (tempFilePath req.data.Name.ValueString)
              req.data.KindConfig.ValueString ::
            (mid ++ [Event.remove (tempFilePath req.data.Name.ValueString)]) ∧
      ∀ e ∈ mid, (∃ p, e = Event.readFile p) ∨ (∃ a, e = Event.exec a)) ∧
    (Create w req).1.files (tempFilePath req.data.Name.ValueString) = none ∧
    (∀ p, p ≠ tempFilePath req.data.Name.ValueString → (Create w req).1.files p = w.files p) := by
  refine ⟨?_, ?_, ?_, ?_, ?_⟩
  · rw [osWriteFile_ok w _ _ hw]
    simp
  · intro hr
    exact osReadFile_after_write w _ _ (tempFilePath_ne_empty _) hw hr
  · rw [Create_inline_written w req hget hc hk hw]
    obtain ⟨tr, hworld, htr⟩ := Create_rest_trace
      (osWriteFile w (tempFilePath req.data.Name.ValueString)
        req.data.KindConfig.ValueString).1
      ⟨Diagnostics.Append [] req.getDiags, none⟩
      req.data req.data.Name.ValueString (tempFilePath req.data.Name.ValueString)
    refine ⟨tr, ?_, ?_⟩
    · rw [osRemove_fst_log, hworld]
      simp [osWriteFile_fst_log]
    · intro e he
      rcases htr with ⟨-, -, htr⟩ | ⟨-, k, -, htr⟩
      · rw [htr] at he
        simp only [List.mem_singleton] at he
        exact Or.inl ⟨_, he⟩
      · rw [htr] at he
        simp only [ne_eq, tempFilePath_ne_empty, not_false_eq_true, if_true, List.singleton_append,
          List.mem_cons, List.mem_replicate] at he
        rcases he with he | he | ⟨-, he⟩
        · exact Or.inl ⟨_, he⟩
        · exact Or.inr ⟨_, he⟩
        · exact Or.inr ⟨_, he⟩
  · rw [Create_inline_written w req hget hc hk hw]
    obtain ⟨tr, hworld, -⟩ := Create_rest_trace
      (osWriteFile w (tempFilePath req.data.Name.ValueString)
        req.data.KindConfig.ValueString).1
      ⟨Diagnostics.Append [] req.getDiags, none⟩
      req.data req.data.Name.ValueString (tempFilePath req.data.Name.ValueString)
    rw [hworld, osRemove_ok_files _ _ (by rw [osWriteFile_ok w _ _ hw]; exact hrm)]
    simp
  · intro p hp
    rw [Create_inline_written w req hget hc hk hw]
    obtain ⟨tr, hworld, -⟩ := Create_rest_trace
      (osWriteFile w (tempFilePath req.data.Name.ValueString)
        req.data.KindConfig.ValueString).1
      ⟨Diagnostics.Append [] req.getDiags, none⟩
      req.data req.data.Name.ValueString (tempFilePath req.data.Name.ValueString)
    rw [hworld, osRemove_ok_files _ _ (by rw [osWriteFile_ok w _ _ hw]; exact hrm)]
    simp [hp, osWriteFile_ok w _ _ hw]


theorem getKubeconfig_ok (w : World) (name s : String)
    (h : (getKubeconfig w name).2 = .ok s) :
    s = (w.tool w.log ["get", "kubeconfig", "--name", name]).stdout := by
  unfold getKubeconfig at h
  simp only [runKind_snd] at h
  split at h
  · simp at h
  · simp only [Except.ok.injEq] at h
    exact h.symm

theorem getClusterEndpoint_ok (w : World) (name s : String)
    (h : (getClusterEndpoint w name).2 = .ok s) :
    ∃ doc c rest,
      w.unmarshalKubeconfig (w.tool w.log ["get", "kubeconfig", "--name", name]).stdout
        = .ok doc ∧
      doc.Clusters = c :: rest ∧ s = c.Cluster.Server := by
  unfold getClusterEndpoint at h
  simp only [runKind_snd] at h
  split at h
  · simp at h
  · split at h
    · simp at h
    · rename_i doc hdoc
      split at h
      · simp at h
      · rename_i c rest hcl
        simp only [Except.ok.injEq] at h
        exact ⟨doc, c, rest, hdoc, hcl, h.symm⟩

theorem SetState_outcome (w : World) (resp : Response) (data : ClusterResourceModel)
    (h0 : Diagnostics.HasError resp.Diagnostics = false) :
    (Diagnostics.HasError (resp.SetState w data).Diagnostics = true →
      (resp.SetState w data).State = resp.State) ∧
    (Diagnostics.HasError (resp.SetState w data).Diagnostics = false →
      (resp.SetState w data).State = some data) := by
  unfold Response.SetState
  simp only [Diagnostics.HasError_Append, h0, Bool.false_or]
  constructor
  · intro h; simp [h]
  · intro h; simp [h]

/-- What the second half of `Create` answers, given a response without errors
and without state: either an error and still no state, or no error and the
plan with the three computed attributes filled from the last two `kind` runs. -/
theorem Create_rest_outcome (w : World) (resp : Response) (data : ClusterResourceModel)
    (n cf : String) (h0 : Diagnostics.HasError resp.Diagnostics = false)
    (hs : resp.State = none) :
    (Diagnostics.HasError (Create_rest w resp data n cf).2.Diagnostics = true →
      (Create_rest w resp data n cf).2.State = none) ∧
    (Diagnostics.HasError (Create_rest w resp data n cf).2.Diagnostics = false →
      ∃ mid doc c rest,
        (Create_rest w resp data n cf).1.log =
          w.log ++ mid ++ [Event.exec ["get", "kubeconfig", "--name", n],
            Event.exec ["get", "kubeconfig", "--name", n]] ∧
        w.unmarshalKubeconfig
          (w.tool (w.log ++ mid ++ [Event.exec ["get", "kubeconfig", "--name", n]])
            ["get", "kubeconfig", "--name", n]).stdout = .ok doc ∧
        doc.Clusters = c :: rest ∧
        (Create_rest w resp data n cf).2.State = some
          { data with
            Id := .value n,
            Kubeconfig := .value
              (w.tool (w.log ++ mid) ["get", "kubeconfig", "--name", n]).stdout,
            Endpoint := .value c.Cluster.Server }) := by
  have hv : (if cf ≠ "" then validateKindConfig w cf else (w, none)).1.tool = w.tool ∧
      (if cf ≠ "" then validateKindConfig w cf else (w, none)).1.unmarshalKubeconfig
        = w.unmarshalKubeconfig := by
    split
    · rw [validateKindConfig_fst]; exact ⟨rfl, rfl⟩
    · exact ⟨rfl, rfl⟩
  obtain ⟨vmid, hvlog⟩ : ∃ vmid,
      (if cf ≠ "" then validateKindConfig w cf else (w, none)).1.log = w.log ++ vmid := by
    split
    · rw [validateKindConfig_fst]; exact ⟨_, rfl⟩
    · exact ⟨[], by simp⟩
  unfold Create_rest
  simp only []
  split
  · simp [Response.AddError, Diagnostics.HasError_AddError, hs]
  · split
    · simp [Response.AddError, Diagnostics.HasError_AddError, hs]
    · split
      · simp [Response.AddError, Diagnostics.HasError_AddError, hs]
      · rename_i kubeconfig hkube
        split
        · simp [Response.AddError, Diagnostics.HasError_AddError, hs]
        · rename_i endpoint hend
          have hset := SetState_outcome
            (getClusterEndpoint
              (getKubeconfig
                (runKind (if cf ≠ "" then validateKindConfig w cf else (w, none)).1
                  (createArgs data n cf)).1 n).1 n).1 resp
            { data with Id := .value n, Kubeconfig := .value kubeconfig,
                        Endpoint := .value endpoint } h0
          refine ⟨fun h => (hset.1 h).trans hs, fun h => ?_⟩
          have hk := getKubeconfig_ok _ _ _ hkube
          obtain ⟨doc, c, rest, hdoc, hcl, hsrv⟩ := getClusterEndpoint_ok _ _ _ hend
          rw [getKubeconfig_fst] at hdoc
          simp only [runKind_fst_tool, runKind_fst_unmarshalKubeconfig, runKind_fst_log,
            hv.1, hv.2, hvlog] at hdoc hk
          refine ⟨vmid ++ [Event.exec (createArgs data n cf)], doc, c, rest, ?_, ?_, hcl, ?_⟩
          · rw [getClusterEndpoint_fst, getKubeconfig_fst]
            simp only [runKind_fst_log, hvlog]
            simp
          · rw [← hdoc]; simp
          · rw [hset.2 h, hk, hsrv]; simp

theorem osWriteFile_fst_tool (w : World) (path data : String) :
    (osWriteFile w path data).1.tool = w.tool := by
  unfold osWriteFile
  split <;> rfl

theorem osWriteFile_fst_unmarshalKubeconfig (w : World) (path data : String) :
    (osWriteFile w path data).1.unmarshalKubeconfig = w.unmarshalKubeconfig := by
  unfold osWriteFile
  split <;> rfl

/-! ## C8 -/

/-- C8, as the code has it.  A `Create` call that ends with an error diagnostic
sets no state.  A `Create` call that ends without one has run
`kind get kubeconfig --name <name>` twice in a row during the call, and the state it sets is
the plan, with its five desired attributes unchanged, `id` equal to `name`,
`kubeconfig` equal verbatim to the standard output of the first of the two
runs, and `endpoint` equal to the server of the first cluster of the document
that the second run printed. -/
theorem Create_persisted_state (w : World) (req : Request) :
    (Diagnostics.HasError (Create w req).2.Diagnostics = true →
      (Create w req).2.State = none) ∧
    (Diagnostics.HasError (Create w req).2.Diagnostics = false →
      ∃ mid doc c rest tail,
        (Create w req).1.log =
          w.log ++ mid ++
            Event.exec ["get", "kubeconfig", "--name", req.data.Name.ValueString] ::
            Event.exec ["get", "kubeconfig", "--name", req.data.Name.ValueString] :: tail ∧
        w.unmarshalKubeconfig
          (w.tool
            (w.log ++ mid ++
              [Event.exec ["get", "kubeconfig", "--name", req.data.Name.ValueString]])
            ["get", "kubeconfig", "--name", req.data.Name.ValueString]).stdout = .ok doc ∧
        doc.Clusters = c :: rest ∧
        (Create w req).2.State = some
          { req.data with
            Id := .value req.data.Name.ValueString,
            Kubeconfig := .value
              (w.tool (w.log ++ mid)
                ["get", "kubeconfig", "--name", req.data.Name.ValueString]).stdout,
            Endpoint := .value c.Cluster.Server }) := by
  cases hget : Diagnostics.HasError req.getDiags
  swap
  · have h1 : Diagnostics.HasError (Diagnostics.Append [] req.getDiags) = true := by
      rw [Diagnostics.HasError_Append_nil]; exact hget
    unfold Create
    simp [h1]
  have h0 : Diagnostics.HasError (Diagnostics.Append [] req.getDiags) = false := by
    rw [Diagnostics.HasError_Append_nil]; exact hget
  cases hk : req.data.KindConfig.IsNull <;> cases hc : req.data.ConfigPath.IsNull
  · unfold Create
    simp [h0, hk, hc, Response.AddError, Diagnostics.HasError_AddError]
  · cases hw : w.writeFault (tempFilePath req.data.Name.ValueString)
        req.data.KindConfig.ValueString with
    | some f =>
      rw [Create_inline_unwritten w req f hget hc hk hw]
      simp [Response.AddError, Diagnostics.HasError_AddError]
    | none =>
      rw [Create_inline_written w req hget hc hk hw]
      have hout := Create_rest_outcome
        (osWriteFile w (tempFilePath req.data.Name.ValueString)
          req.data.KindConfig.ValueString).1
        ⟨Diagnostics.Append [] req.getDiags, none⟩ req.data req.data.Name.ValueString
        (tempFilePath req.data.Name.ValueString) h0 rfl
      refine ⟨hout.1, fun h => ?_⟩
      obtain ⟨mid, doc, c, rest, hlog, hdoc, hcl, hst⟩ := hout.2 h
      rw [osWriteFile_fst_tool, osWriteFile_fst_unmarshalKubeconfig, osWriteFile_fst_log]
        at hdoc
      rw [osWriteFile_fst_tool, osWriteFile_fst_log] at hst
      rw [osWriteFile_fst_log] at hlog
      refine ⟨Event.writeFile (tempFilePath req.data.Name.ValueString)
          req.data.KindConfig.ValueString :: mid, doc, c, rest,
        [Event.remove (tempFilePath req.data.Name.ValueString)], ?_, ?_, hcl, ?_⟩
      · rw [osRemove_fst_log, hlog]
        simp
      · rw [← hdoc]; simp
      · rw [hst]; simp
  · rw [Create_with_path w req hget hc hk]
    have hout := Create_rest_outcome w
      ⟨Diagnostics.Append [] req.getDiags, none⟩ req.data req.data.Name.ValueString
      req.data.ConfigPath.ValueString h0 rfl
    refine ⟨hout.1, fun h => ?_⟩
    obtain ⟨mid, doc, c, rest, hlog, hdoc, hcl, hst⟩ := hout.2 h
    exact ⟨mid, doc, c, rest, [], by rw [hlog], hdoc, hcl, hst⟩
  · unfold Create
    simp [h0, hk, hc, Response.AddError, Diagnostics.HasError_AddError]

/-! ## C9 -/

/-- C9, as the code has it.  For every prior state, when `Read` finds the
cluster listed and ends without an error diagnostic, it has run
`kind get kubeconfig --name <name>` twice after the listing, and in the state
it sets `kubeconfig` is the standard output of the first of these runs and
`endpoint` is the server of the first cluster of the document that the second
run printed, whatever the prior state held for them; the five desired
attributes are those of the prior state. -/
theorem Read_refreshes_credentials (w : World) (req : Request)
    (hlisted : (clusterExists w req.data.Name.ValueString).2 = .ok true)
    (hok : Diagnostics.HasError (Read w req).2.Diagnostics = false) :
    ∃ st doc c rest,
      (Read w req).2.State = some st ∧
      (Read w req).1.log = w.log ++
        [Event.exec ["get", "clusters"],
         Event.exec ["get", "kubeconfig", "--name", req.data.Name.ValueString],
         Event.exec ["get", "kubeconfig", "--name", req.data.Name.ValueString]] ∧
      st.Kubeconfig = .value
        (w.tool (w.log ++ [Event.exec ["get", "clusters"]])
          ["get", "kubeconfig", "--name", req.data.Name.ValueString]).stdout ∧
      w.unmarshalKubeconfig
        (w.tool
          (w.log ++ [Event.exec ["get", "clusters"],
            Event.exec ["get", "kubeconfig", "--name", req.data.Name.ValueString]])
          ["get", "kubeconfig", "--name", req.data.Name.ValueString]).stdout = .ok doc ∧
      doc.Clusters = c :: rest ∧
      st.Endpoint = .value c.Cluster.Server ∧
      st.Name = req.data.Name ∧ st.KindConfig = req.data.KindConfig ∧
      st.ConfigPath = req.data.ConfigPath ∧ st.NodeImage = req.data.NodeImage ∧
      st.WaitForReady = req.data.WaitForReady := by
  cases hget : Diagnostics.HasError req.getDiags
  swap
  · have h1 : Diagnostics.HasError (Diagnostics.Append [] req.getDiags) = true := by
      rw [Diagnostics.HasError_Append_nil]; exact hget
    unfold Read at hok
    simp [h1] at hok
  have h0 : Diagnostics.HasError (Diagnostics.Append [] req.getDiags) = false := by
    rw [Diagnostics.HasError_Append_nil]; exact hget
  unfold Read at hok ⊢
  simp only [h0, hlisted, Bool.false_eq_true, if_false] at hok ⊢
  split at hok
  · simp [Response.AddError, Diagnostics.HasError_AddError] at hok
  · rename_i kubeconfig hkube
    split at hok
    · simp [Response.AddError, Diagnostics.HasError_AddError] at hok
    · rename_i endpoint hend
      have hset := (SetState_outcome
        (getClusterEndpoint (getKubeconfig (clusterExists w req.data.Name.ValueString).1
          req.data.Name.ValueString).1 req.data.Name.ValueString).1
        ⟨Diagnostics.Append [] req.getDiags, some req.data⟩
        { req.data with Kubeconfig := .value kubeconfig, Endpoint := .value endpoint } h0).2 hok
      have hk := getKubeconfig_ok _ _ _ hkube
      obtain ⟨doc, c, rest, hdoc, hcl, hsrv⟩ := getClusterEndpoint_ok _ _ _ hend
      rw [getKubeconfig_fst, clusterExists_fst] at hdoc
      rw [clusterExists_fst] at hk
      simp only [List.append_assoc, List.singleton_append] at hdoc hk
      refine ⟨_, doc, c, rest, hset, ?_, ?_, hdoc, hcl, ?_, rfl, rfl, rfl, rfl, rfl⟩
      · rw [getClusterEndpoint_fst, getKubeconfig_fst, clusterExists_fst]
        simp
      · simp only [hk]
      · simp only [hsrv]


/-! ## Splitting and trimming -/

theorem splitChars_ne_nil (sep : Char) (s : List Char) : splitChars sep s ≠ [] := by
  cases s with
  | nil => simp [splitChars]
  | cons c cs =>
    unfold splitChars
    split
    · simp
    · split <;> simp

theorem trimChars_nil : trimChars [] = [] := rfl

theorem trimChars_cons_space (c : Char) (l : List Char) (h : isSpace c = true) :
    trimChars (c :: l) = trimChars l := by
  unfold trimChars
  rw [List.dropWhile_cons_of_pos h]

theorem trimChars_concat_space (c : Char) (l : List Char) (h : isSpace c = true) :
    trimChars (l ++ [c]) = trimChars l := by
  unfold trimChars
  rw [List.dropWhile_append]
  split
  · rename_i hemp
    have : List.dropWhile isSpace l = [] := by simpa using hemp
    rw [this, List.dropWhile_cons_of_pos h]
    rfl
  · exact List.rdropWhile_concat_pos _ _ _ h

theorem splitChars_cons_sep (sep : Char) (cs : List Char) :
    splitChars sep (sep :: cs) = [] :: splitChars sep cs := by
  simp [splitChars]

theorem splitChars_cons_ne (sep c : Char) (cs p : List Char) (ps : List (List Char))
    (hc : c ≠ sep) (h : splitChars sep cs = p :: ps) :
    splitChars sep (c :: cs) = (c :: p) :: ps := by
  simp [splitChars, hc, h]

theorem exists_trim_cons_space (sep c : Char) (cs n : List Char) (hc : isSpace c = true)
    (hn : n ≠ []) :
    (∃ l ∈ splitChars sep (c :: cs), trimChars l = n) ↔
      (∃ l ∈ splitChars sep cs, trimChars l = n) := by
  by_cases hsep : c = sep
  · subst hsep
    rw [splitChars_cons_sep]
    simp only [List.mem_cons, exists_eq_or_imp, trimChars_nil]
    constructor
    · rintro (h | h)
      · exact absurd h.symm hn
      · exact h
    · exact Or.inr
  · cases hsp : splitChars sep cs with
    | nil => exact absurd hsp (splitChars_ne_nil sep cs)
    | cons p ps =>
      rw [splitChars_cons_ne sep c cs p ps hsep hsp]
      simp only [List.mem_cons, exists_eq_or_imp, trimChars_cons_space c p hc]

theorem exists_trim_dropWhile (sep : Char) (s n : List Char) (hn : n ≠ []) :
    (∃ l ∈ splitChars sep (s.dropWhile isSpace), trimChars l = n) ↔
      (∃ l ∈ splitChars sep s, trimChars l = n) := by
  induction s with
  | nil => rfl
  | cons c cs ih =>
    by_cases hc : isSpace c = true
    · rw [List.dropWhile_cons_of_pos hc, ih, exists_trim_cons_space sep c cs n hc hn]
    · rw [List.dropWhile_cons_of_neg hc]

theorem splitChars_concat (sep c : Char) (s : List Char) (ps : List (List Char))
    (p : List Char) (h : splitChars sep s = ps ++ [p]) :
    splitChars sep (s ++ [c]) = if c = sep then ps ++ [p, []] else ps ++ [p ++ [c]] := by
  induction s generalizing ps p with
  | nil =>
    simp only [splitChars] at h
    cases ps with
    | nil =>
      simp only [List.nil_append, List.cons.injEq, and_true] at h
      subst h
      by_cases hc : c = sep <;> simp [splitChars, hc]
    | cons q qs =>
      simp only [List.cons_append, List.cons.injEq] at h
      have := h.2
      simp at this
  | cons d ds ih =>
    obtain ⟨qs, q, hq⟩ : ∃ qs q, splitChars sep ds = qs ++ [q] := by
      rcases List.eq_nil_or_concat (splitChars sep ds) with h0 | ⟨qs, q, h1⟩
      · exact absurd h0 (splitChars_ne_nil sep ds)
      · exact ⟨qs, q, by simpa using h1⟩
    have ih1 := ih qs q hq
    simp only [List.cons_append]
    by_cases hd : d = sep
    · subst hd
      rw [splitChars_cons_sep] at h ⊢
      rw [hq] at h
      have hps : ps ++ [p] = ([] :: qs) ++ [q] := by simpa using h.symm
      obtain ⟨h1, h2⟩ := List.append_inj' hps rfl
      simp only [List.cons.injEq, and_true] at h2
      subst h1 h2
      rw [ih1]
      by_cases hc : c = d <;> simp [hc]
    · cases qs with
      | nil =>
        simp only [List.nil_append] at hq ih1
        rw [splitChars_cons_ne sep d ds q [] hd hq] at h
        have hps : ps ++ [p] = [] ++ [d :: q] := by simpa using h.symm
        obtain ⟨h1, h2⟩ := List.append_inj' hps rfl
        simp only [List.cons.injEq, and_true] at h2
        subst h1 h2
        by_cases hc : c = sep
        · simp only [hc, if_true] at ih1 ⊢
          rw [← hc] at ih1 ⊢
          rw [splitChars_cons_ne c d (ds ++ [c]) q [[]] (hc ▸ hd) ih1]
          simp
        · simp only [hc, if_false] at ih1 ⊢
          rw [splitChars_cons_ne sep d (ds ++ [c]) (q ++ [c]) [] hd ih1]
          simp
      | cons x xs =>
        simp only [List.cons_append] at hq ih1
        rw [splitChars_cons_ne sep d ds x (xs ++ [q]) hd hq] at h
        have hps : ps ++ [p] = ((d :: x) :: xs) ++ [q] := by simpa using h.symm
        obtain ⟨h1, h2⟩ := List.append_inj' hps rfl
        simp only [List.cons.injEq, and_true] at h2
        subst h1 h2
        by_cases hc : c = sep
        · simp only [hc, if_true] at ih1 ⊢
          rw [← hc] at ih1 ⊢
          rw [splitChars_cons_ne c d (ds ++ [c]) x (xs ++ [p, []]) (hc ▸ hd) ih1]
          simp
        · simp only [hc, if_false] at ih1 ⊢
          rw [splitChars_cons_ne sep d (ds ++ [c]) x (xs ++ [p ++ [c]]) hd ih1]
          simp

theorem exists_trim_concat_space (sep c : Char) (s n : List Char) (hc : isSpace c = true)
    (hn : n ≠ []) :
    (∃ l ∈ splitChars sep (s ++ [c]), trimChars l = n) ↔
      (∃ l ∈ splitChars sep s, trimChars l = n) := by
  obtain ⟨ps, p, hp⟩ : ∃ ps p, splitChars sep s = ps ++ [p] := by
    rcases List.eq_nil_or_concat (splitChars sep s) with h0 | ⟨ps, p, h1⟩
    · exact absurd h0 (splitChars_ne_nil sep s)
    · exact ⟨ps, p, by simpa using h1⟩
  rw [splitChars_concat sep c s ps p hp, hp]
  by_cases hsep : c = sep
  · simp only [hsep, if_true, List.mem_append, List.mem_cons, List.mem_singleton,
      List.not_mem_nil, or_false]
    constructor
    · rintro ⟨l, (h | h | h), hl⟩
      · exact ⟨l, Or.inl h, hl⟩
      · exact ⟨l, Or.inr h, hl⟩
      · subst h
        exact absurd hl.symm hn
    · rintro ⟨l, (h | h), hl⟩
      · exact ⟨l, Or.inl h, hl⟩
      · exact ⟨l, Or.inr (Or.inl h), hl⟩
  · simp only [hsep, if_false, List.mem_append, List.mem_singleton]
    constructor
    · rintro ⟨l, (h | h), hl⟩
      · exact ⟨l, Or.inl h, hl⟩
      · subst h
        exact ⟨p, Or.inr rfl, by rw [← trimChars_concat_space c p hc]; exact hl⟩
    · rintro ⟨l, (h | h), hl⟩
      · exact ⟨l, Or.inl h, hl⟩
      · subst h
        exact ⟨l ++ [c], Or.inr rfl, by rw [trimChars_concat_space c l hc]; exact hl⟩

theorem exists_trim_rdropWhile (sep : Char) (s n : List Char) (hn : n ≠ []) :
    (∃ l ∈ splitChars sep (s.rdropWhile isSpace), trimChars l = n) ↔
      (∃ l ∈ splitChars sep s, trimChars l = n) := by
  induction s using List.reverseRecOn with
  | nil => rfl
  | append_singleton t c ih =>
    by_cases hc : isSpace c = true
    · rw [List.rdropWhile_concat_pos _ _ _ hc, ih, exists_trim_concat_space sep c t n hc hn]
    · rw [List.rdropWhile_concat_neg _ _ _ hc]

/-- Trimming the whole text first changes no non-empty trimmed piece. -/
theorem exists_trim_trimChars (sep : Char) (s n : List Char) (hn : n ≠ []) :
    (∃ l ∈ splitChars sep (trimChars s), trimChars l = n) ↔
      (∃ l ∈ splitChars sep s, trimChars l = n) := by
  have h1 : trimChars s = (s.dropWhile isSpace).rdropWhile isSpace := rfl
  rw [h1, exists_trim_rdropWhile sep _ n hn]
  exact exists_trim_dropWhile sep s n hn

theorem TrimSpace_eq_iff (l : List Char) (name : String) :
    TrimSpace ⟨l⟩ = name ↔ trimChars l = name.data := by
  unfold TrimSpace
  constructor
  · intro h; rw [← h]
  · intro h; exact String.ext h

theorem any_Split_iff (s name : String) :
    ((Split s newline).any fun cluster => TrimSpace cluster == name) = true ↔
      ∃ l ∈ splitChars newline s.data, trimChars l = name.data := by
  unfold Split
  rw [List.any_eq_true]
  constructor
  · rintro ⟨x, hx, hxn⟩
    obtain ⟨l, hl, rfl⟩ := List.mem_map.1 hx
    exact ⟨l, hl, (TrimSpace_eq_iff l name).1 (by simpa using hxn)⟩
  · rintro ⟨l, hl, hln⟩
    exact ⟨⟨l⟩, List.mem_map.2 ⟨l, hl, rfl⟩, by simpa using (TrimSpace_eq_iff l name).2 hln⟩

theorem exists_Split_iff (s name : String) :
    (∃ line ∈ Split s newline, TrimSpace line = name) ↔
      ∃ l ∈ splitChars newline s.data, trimChars l = name.data := by
  unfold Split
  constructor
  · rintro ⟨x, hx, hxn⟩
    obtain ⟨l, hl, rfl⟩ := List.mem_map.1 hx
    exact ⟨l, hl, (TrimSpace_eq_iff l name).1 hxn⟩
  · rintro ⟨l, hl, hln⟩
    exact ⟨⟨l⟩, List.mem_map.2 ⟨l, hl, rfl⟩, (TrimSpace_eq_iff l name).2 hln⟩

theorem specListed_iff (output name : String) (hname : name ≠ "") :
    specListed output name ↔ ∃ line ∈ Split output newline, TrimSpace line = name := by
  unfold specListed specOutputLines
  simp only []
  split
  · rename_i hlast
    have hsplit := List.dropLast_append_getLast? _ hlast
    constructor
    · rintro ⟨line, hmem, hline⟩
      exact ⟨line, List.mem_of_mem_dropLast hmem, hline⟩
    · rintro ⟨line, hmem, hline⟩
      rw [← hsplit, List.mem_append, List.mem_singleton] at hmem
      rcases hmem with hmem | hmem
      · exact ⟨line, hmem, hline⟩
      · subst hmem
        exact absurd hline.symm hname
  · rfl

/-- For a non-empty name, the answer of the loop in `clusterExists` is presence
in the specification's sense. -/
theorem any_trimmed_eq_specListed (output name : String) (hname : name ≠ "") :
    ((Split (TrimSpace output) newline).any fun cluster => TrimSpace cluster == name)
      = decide (specListed output name) := by
  have hn : name.data ≠ [] := by
    intro h
    exact hname (String.ext h)
  rw [Bool.eq_iff_iff, any_Split_iff, decide_eq_true_iff, specListed_iff output name hname,
    exists_Split_iff]
  exact exists_trim_trimChars newline output.data name.data hn

/-! ## C5 -/

/-- C5, as the code has it.  Let the name be non-empty and let `kind get
clusters` succeed.  Then `clusterExists` returns true exactly when the name is
equal, case-sensitively and in full, to some line of the standard output after
that line's white space is trimmed; and when no line is, and the prior state
decodes without error, `Read` removes the resource from the state, adds no
diagnostic of its own, and runs no further command. -/
theorem clusterExists_exact_line (w : World) (req : Request)
    (hname : req.data.Name.ValueString ≠ "")
    (hrun : (w.tool w.log ["get", "clusters"]).err = none) :
    (clusterExists w req.data.Name.ValueString).2 =
      .ok (decide (specListed (w.tool w.log ["get", "clusters"]).stdout
        req.data.Name.ValueString)) ∧
    (Diagnostics.HasError req.getDiags = false →
      ¬ specListed (w.tool w.log ["get", "clusters"]).stdout req.data.Name.ValueString →
      (Read w req).2.State = none ∧
      (Read w req).2.Diagnostics = Diagnostics.Append [] req.getDiags ∧
      Diagnostics.HasError (Read w req).2.Diagnostics = false ∧
      (Read w req).1.log = w.log ++ [Event.exec ["get", "clusters"]]) := by
  have hex : (clusterExists w req.data.Name.ValueString).2 =
      .ok (decide (specListed (w.tool w.log ["get", "clusters"]).stdout
        req.data.Name.ValueString)) := by
    unfold clusterExists
    simp only [runKind_snd, hrun]
    rw [any_trimmed_eq_specListed _ _ hname]
  refine ⟨hex, fun hget habsent => ?_⟩
  have h0 : Diagnostics.HasError (Diagnostics.Append [] req.getDiags) = false := by
    rw [Diagnostics.HasError_Append_nil]; exact hget
  have hfalse : (clusterExists w req.data.Name.ValueString).2 = .ok false := by
    rw [hex]; simp [habsent]
  unfold Read
  simp [h0, hfalse, clusterExists_fst]


/-! ## Concrete runs -/

/-- C1 at a concrete input: a plan for `dev` with neither source is refused with
'Configuration Required', a plan with both with 'Conflicting Configuration',
and the world is untouched. -/
theorem Create_source_check_witness :
    Diagnostics.HasError (Request.getDiags ⟨nameOnly "dev", []⟩) = false ∧
    (Create (sampleWorld steadyTool) ⟨nameOnly "dev", []⟩).1.log = [] ∧
    (Create (sampleWorld steadyTool) ⟨nameOnly "dev", []⟩).2 =
      ⟨[⟨Severity.error, "Configuration Required",
        "Either 'kind_config' or 'config_path' must be specified"⟩], none⟩ ∧
    (⟨Severity.error, "Conflicting Configuration",
        "Only one of 'kind_config' or 'config_path' should be specified"⟩ : Diagnostic) ∈
      (Create (sampleWorld steadyTool)
        ⟨{ nameOnly "dev" with KindConfig := .value "kind: Cluster",
                               ConfigPath := .value "/etc/kind/dev.yaml" }, []⟩).2.Diagnostics :=
  ⟨by decide,
   by rw [((Create_source_check (sampleWorld steadyTool) ⟨nameOnly "dev", []⟩
      (by decide)).1 ⟨by decide, by decide⟩).1]; rfl,
   by decide,
   ((Create_source_check (sampleWorld steadyTool)
      ⟨{ nameOnly "dev" with KindConfig := .value "kind: Cluster",
                             ConfigPath := .value "/etc/kind/dev.yaml" }, []⟩
      (by decide)).2.1 ⟨by decide, by decide⟩).2.2.2⟩

/-- C2 at a concrete input: an inline `kind: Deployment` document, and a file of
that kind, are rejected before any `kind` command runs. -/
theorem Create_rejects_wrong_kind_witness :
    (Create (sampleWorld steadyTool) (inlinePlan "kind: Deployment")).2.State = none ∧
    invocations (Create (sampleWorld steadyTool) (inlinePlan "kind: Deployment")).1.log = [] ∧
    invocations (Create deploymentWorld (pathPlan "/etc/kind/deploy.yaml")).1.log = [] ∧
    (⟨Severity.error, "Invalid Kind configuration",
        "Error validating config: kind must be 'Cluster', got 'Deployment'"⟩ : Diagnostic) ∈
      (Create deploymentWorld (pathPlan "/etc/kind/deploy.yaml")).2.Diagnostics :=
  ⟨(Create_rejects_wrong_kind (sampleWorld steadyTool) (inlinePlan "kind: Deployment")
      ⟨"Deployment"⟩ (by decide) (Or.inr ⟨by decide, by decide, rfl, rfl, rfl⟩)
      (by decide)).2.2.1,
   (Create_rejects_wrong_kind (sampleWorld steadyTool) (inlinePlan "kind: Deployment")
      ⟨"Deployment"⟩ (by decide) (Or.inr ⟨by decide, by decide, rfl, rfl, rfl⟩)
      (by decide)).2.2.2,
   (Create_rejects_wrong_kind deploymentWorld (pathPlan "/etc/kind/deploy.yaml")
      ⟨"Deployment"⟩ (by decide)
      (Or.inl ⟨by decide, by decide, "kind: Deployment", rfl, rfl⟩) (by decide)).2.2.2,
   (Create_rejects_wrong_kind deploymentWorld (pathPlan "/etc/kind/deploy.yaml")
      ⟨"Deployment"⟩ (by decide)
      (Or.inl ⟨by decide, by decide, "kind: Deployment", rfl, rfl⟩) (by decide)).2.1⟩

/-- C3 fails as stated: with `config_path` set to the empty string, `Create`
passes the source check, is not stopped by validation, ends without error, and
hands `kind` an argument list without `--config`. -/
theorem Create_empty_path_omits_config :
    (fullPlan .null (.value "")).data.ConfigPath.IsNull = false ∧
    (fullPlan .null (.value "")).data.KindConfig.IsNull = true ∧
    Diagnostics.HasError
      (Create (sampleWorld steadyTool) (fullPlan .null (.value ""))).2.Diagnostics = false ∧
    invocations
      (Create (sampleWorld steadyTool) (fullPlan .null (.value ""))).1.log =
      [["create", "cluster", "--name", "dev", "--image", "kindest/node:v1.29.0",
          "--wait", "300s"],
        ["get", "kubeconfig", "--name", "dev"], ["get", "kubeconfig", "--name", "dev"]] ∧
    invocations
      (Create (sampleWorld steadyTool) (fullPlan .null (.value ""))).1.log ≠
      [["create", "cluster", "--name", "dev", "--config", "", "--image",
          "kindest/node:v1.29.0", "--wait", "300s"],
        ["get", "kubeconfig", "--name", "dev"], ["get", "kubeconfig", "--name", "dev"]] := by
  decide

/-- C3 at a concrete input: an inline configuration with an image and the wait
flag gives all three optional argument pairs, in order. -/
theorem Create_argument_list_witness :
    ∃ later,
      invocations
        (Create (sampleWorld steadyTool) (fullPlan (.value "kind: Cluster") .null)).1.log =
        ["create", "cluster", "--name", "dev", "--config", "/tmp/kind-config-dev.yaml",
          "--image", "kindest/node:v1.29.0", "--wait", "300s"] :: later :=
  Create_argument_list (sampleWorld steadyTool) (fullPlan (.value "kind: Cluster") .null)
    (by decide) (Or.inr ⟨by decide, by decide, rfl, by decide⟩)

/-- C4 at a concrete input: deleting a cluster that `kind` reports as not found
is a success, although the command failed. -/
theorem Delete_error_iff_witness :
    (emptyTool [] ["delete", "cluster", "--name", "dev"]).err = some "exit status 1" ∧
    Diagnostics.HasError
      (Delete (sampleWorld emptyTool) ⟨nameOnly "dev", []⟩).2.Diagnostics = false := by
  refine ⟨by decide, ?_⟩
  have h := (Delete_error_iff (sampleWorld emptyTool) ⟨nameOnly "dev", []⟩ (by decide)).1
  cases hd : Diagnostics.HasError
      (Delete (sampleWorld emptyTool) ⟨nameOnly "dev", []⟩).2.Diagnostics
  · rfl
  · exact absurd ⟨"ERROR: cluster \"dev\" ", "", by decide⟩ (h.1 hd).2

/-- C7 at a concrete input: of a document with two clusters the first one's
server is returned. -/
theorem getClusterEndpoint_first_cluster_witness :
    (getClusterEndpoint (sampleWorld steadyTool) "dev").2 = .ok "https://a:6443" :=
  ((getClusterEndpoint_first_cluster (sampleWorld steadyTool) "dev" (by decide)).1
    ⟨[⟨⟨"https://a:6443"⟩⟩, ⟨⟨"https://b:6443"⟩⟩]⟩ rfl).2 ⟨⟨"https://a:6443"⟩⟩
      [⟨⟨"https://b:6443"⟩⟩] rfl

/-- C5 fails as stated for the empty name.  When the listing prints nothing, no
line of the output is equal to the name, yet `clusterExists` returns true and
`Read` keeps the resource and goes on to fetch credentials.  When the listing
starts with a blank line, that line is equal to the name after trimming, yet
`clusterExists` returns false. -/
theorem clusterExists_empty_name :
    (¬ specListed (emptyTool [] ["get", "clusters"]).stdout "" ∧
      (clusterExists (sampleWorld emptyTool) "").2 = .ok true ∧
      (Read (sampleWorld emptyTool) ⟨nameOnly "", []⟩).2.State = some (nameOnly "") ∧
      (Read (sampleWorld emptyTool) ⟨nameOnly "", []⟩).1.log =
        [Event.exec ["get", "clusters"], Event.exec ["get", "kubeconfig", "--name", ""],
          Event.exec ["get", "kubeconfig", "--name", ""]]) ∧
    (specListed (blankLineTool [] ["get", "clusters"]).stdout "" ∧
      (clusterExists (sampleWorld blankLineTool) "").2 = .ok false) := by
  decide

/-- C5 at a concrete input: `prod` is not a line of the listing "dev", so it does
not exist and `Read` removes it; neither does the proper beginning `de` of a
listed name. -/
theorem clusterExists_exact_line_witness :
    (clusterExists (sampleWorld steadyTool) "prod").2 = .ok false ∧
    (Read (sampleWorld steadyTool) ⟨nameOnly "prod", []⟩).2 = ⟨[], none⟩ ∧
    (clusterExists (sampleWorld steadyTool) "de").2 = .ok false ∧
    (clusterExists (sampleWorld steadyTool) "dev").2 = .ok true := by
  have h1 := clusterExists_exact_line (sampleWorld steadyTool) ⟨nameOnly "prod", []⟩
    (by decide) (by decide)
  have h2 := clusterExists_exact_line (sampleWorld steadyTool) ⟨nameOnly "de", []⟩
    (by decide) (by decide)
  have h3 := clusterExists_exact_line (sampleWorld steadyTool) ⟨nameOnly "dev", []⟩
    (by decide) (by decide)
  refine ⟨h1.1.trans (by decide), ?_, h2.1.trans (by decide), h3.1.trans (by decide)⟩
  obtain ⟨hs, hd, -, -⟩ := h1.2 (by decide) (by decide)
  cases hr : (Read (sampleWorld steadyTool) ⟨nameOnly "prod", []⟩).2 with
  | mk ds st =>
    rw [hr] at hs hd
    simp only at hs hd
    rw [hs, hd]
    rfl

/-- C6 fails as stated.  When the temporary file exists and cannot be written,
`Create` returns at the failed write, before the removal is registered, and
the file still exists.  When the file cannot be removed, the error of
`os.Remove` is dropped and the file still exists, holding the configuration. -/
theorem Create_leaves_temp_file :
    ((inlinePlan "kind: Cluster").data.KindConfig.IsNull = false ∧
      (inlinePlan "kind: Cluster").data.ConfigPath.IsNull = true) ∧
    ((Create staleWorld (inlinePlan "kind: Cluster")).1.files "/tmp/kind-config-dev.yaml"
        = some "stale" ∧
      (Create staleWorld (inlinePlan "kind: Cluster")).1.log =
        [Event.writeFile "/tmp/kind-config-dev.yaml" "kind: Cluster"] ∧
      (Create staleWorld (inlinePlan "kind: Cluster")).2 =
        ⟨[⟨Severity.error, "Failed to create temporary config file",
          "Error: open /tmp/kind-config-dev.yaml: permission denied"⟩], none⟩) ∧
    ((Create stickyWorld (inlinePlan "kind: Cluster")).1.files "/tmp/kind-config-dev.yaml"
        = some "kind: Cluster" ∧
      Diagnostics.HasError (Create stickyWorld (inlinePlan "kind: Cluster")).2.Diagnostics
        = false) := by
  decide

/-- C6 at a concrete input: after a successful `Create` with an inline
configuration, and after one that validation stops, the temporary file is gone. -/
theorem Create_temp_file_lifetime_witness :
    (Create (sampleWorld steadyTool) (inlinePlan "kind: Cluster")).1.files
        "/tmp/kind-config-dev.yaml" = none ∧
    (Create (sampleWorld steadyTool) (inlinePlan "kind: Deployment")).1.files
        "/tmp/kind-config-dev.yaml" = none ∧
    (Create (sampleWorld steadyTool) (inlinePlan "kind: Deployment")).1.log =
      [Event.writeFile "/tmp/kind-config-dev.yaml" "kind: Deployment",
        Event.readFile "/tmp/kind-config-dev.yaml",
        Event.remove "/tmp/kind-config-dev.yaml"] :=
  ⟨(Create_temp_file_lifetime (sampleWorld steadyTool) (inlinePlan "kind: Cluster")
      (by decide) (by decide) (by decide) rfl rfl).2.2.2.1,
   (Create_temp_file_lifetime (sampleWorld steadyTool) (inlinePlan "kind: Deployment")
      (by decide) (by decide) (by decide) rfl rfl).2.2.2.1,
   by decide⟩

/-- C8 fails as stated: when `kind get kubeconfig` answers its second run with
another document, `Create` ends without error and stores the first document as
`kubeconfig` but the first server of the second document as `endpoint`, not
the first server of the stored document. -/
theorem Create_endpoint_from_second_fetch :
    (Create (sampleWorld driftTool) (inlinePlan "kind: Cluster")).2 =
      ⟨[], some
        { Name := .value "dev", KindConfig := .value "kind: Cluster", ConfigPath := .null,
          NodeImage := .null, WaitForReady := .null,
          Kubeconfig := .value "clusters: [a, b]", Endpoint := .value "https://b:6443",
          Id := .value "dev" }⟩ ∧
    (sampleUnmarshalKubeconfig "clusters: [a, b]").toOption.map
        (fun doc => doc.Clusters.head?.map fun c => c.Cluster.Server)
      = some (some "https://a:6443") := by
  decide

/-- C8 at a concrete input: with a steady `kind`, `Create` stores the plan, the
name as `id`, the exported document and its first server. -/
theorem Create_persisted_state_witness :
    (Create (sampleWorld steadyTool) (inlinePlan "kind: Cluster")).2.State = some
      { Name := .value "dev", KindConfig := .value "kind: Cluster", ConfigPath := .null,
        NodeImage := .null, WaitForReady := .null,
        Kubeconfig := .value "clusters: [a, b]", Endpoint := .value "https://a:6443",
        Id := .value "dev" } ∧
    (Create (sampleWorld steadyTool) (inlinePlan "kind: Deployment")).2.State = none :=
  ⟨by decide,
   (Create_persisted_state (sampleWorld steadyTool) (inlinePlan "kind: Deployment")).1
    (by decide)⟩

/-- C9 fails as stated: on the state that `ImportState` produces for `dev`,
`Read` finds the cluster, ends without error, and sets a state whose `id` is
still null, not the name; and whose `endpoint` is the first server of the
second exported document, not of the stored `kubeconfig`. -/
theorem Read_imported_state_keeps_null_id :
    (ImportState "dev").State = some (nameOnly "dev") ∧
    (clusterExists (sampleWorld driftTool) "dev").2 = .ok true ∧
    (Read (sampleWorld driftTool) ⟨nameOnly "dev", []⟩).2 =
      ⟨[], some
        { Name := .value "dev", KindConfig := .null, ConfigPath := .null,
          NodeImage := .null, WaitForReady := .null,
          Kubeconfig := .value "clusters: [a, b]", Endpoint := .value "https://b:6443",
          Id := .null }⟩ ∧
    (sampleUnmarshalKubeconfig "clusters: [a, b]").toOption.map
        (fun doc => doc.Clusters.head?.map fun c => c.Cluster.Server)
      = some (some "https://a:6443") := by
  decide

/-- C9 at a concrete input: a prior state with stale credentials is refreshed
from the two exports. -/
theorem Read_refreshes_credentials_witness :
    ∃ st, (Read (sampleWorld steadyTool)
        ⟨{ nameOnly "dev" with Kubeconfig := .value "old", Endpoint := .value "old" }, []⟩
      ).2.State = some st ∧
      st.Kubeconfig = .value "clusters: [a, b]" ∧ st.Name = .value "dev" := by
  obtain ⟨st, doc, c, rest, h1, -, h3, -, -, -, h7, -⟩ :=
    Read_refreshes_credentials (sampleWorld steadyTool)
      ⟨{ nameOnly "dev" with Kubeconfig := .value "old", Endpoint := .value "old" }, []⟩
      (by decide) (by decide)
  exact ⟨st, h1, h3, h7⟩

/-- C10 fails as stated: with `config_path` set to the empty string exactly one
source is set, `kind create cluster` runs, and no file was read before it:
`validateKindConfig` did not run, and it would have returned an error. -/
theorem Create_empty_path_skips_validation :
    ((pathPlan "").data.KindConfig.IsNull = true ∧
      (pathPlan "").data.ConfigPath.IsNull = false) ∧
    (Create (sampleWorld steadyTool) (pathPlan "")).1.log =
      [Event.exec ["create", "cluster", "--name", "dev"],
        Event.exec ["get", "kubeconfig", "--name", "dev"],
        Event.exec ["get", "kubeconfig", "--name", "dev"]] ∧
    (validateKindConfig (sampleWorld steadyTool) "").2 =
      some "failed to read config file: open : no such file or directory" := by
  decide

/-- C10 at a concrete input: in a successful `Create` with an inline
configuration, the read of the temporary file comes before the first `kind`
command, and validation of that file returned no error. -/
theorem Create_validates_before_running_witness :
    (Create (sampleWorld steadyTool) (inlinePlan "kind: Cluster")).1.log =
      [Event.writeFile "/tmp/kind-config-dev.yaml" "kind: Cluster",
        Event.readFile "/tmp/kind-config-dev.yaml",
        Event.exec ["create", "cluster", "--name", "dev", "--config",
          "/tmp/kind-config-dev.yaml"],
        Event.exec ["get", "kubeconfig", "--name", "dev"],
        Event.exec ["get", "kubeconfig", "--name", "dev"],
        Event.remove "/tmp/kind-config-dev.yaml"] ∧
    (validateKindConfig
      (osWriteFile (sampleWorld steadyTool) "/tmp/kind-config-dev.yaml" "kind: Cluster").1
      "/tmp/kind-config-dev.yaml").2 = none :=
  ⟨by decide,
   (Create_validates_before_running (sampleWorld steadyTool) (inlinePlan "kind: Cluster")
      (by decide) (by decide) (by decide)
      [Event.writeFile "/tmp/kind-config-dev.yaml" "kind: Cluster",
        Event.readFile "/tmp/kind-config-dev.yaml"]
      [Event.exec ["get", "kubeconfig", "--name", "dev"],
        Event.exec ["get", "kubeconfig", "--name", "dev"],
        Event.remove "/tmp/kind-config-dev.yaml"]
      ["create", "cluster", "--name", "dev", "--config", "/tmp/kind-config-dev.yaml"]
      (by decide)).2⟩

end KindProvider
